import Mathlib

/-!
Shallow embedding of dual-scroll-sync v0.6.0 (`src/src/index.js`, the
class-private-field revision: `buildMap` lines 1142-1188, `lookup` lines
1201-1219, controller lines 1232-1520).

Numbers are modelled as ℚ: every arithmetic operation the source performs
(+, -, *, /, min, max, Math.abs, Math.round) is exact on rationals, so ℚ
is a faithful model on the pixel quantities involved.
-/

/-- An anchor correspondence as supplied by the caller (`Anchor` in
`types.d.ts`): pixel position `aPx` in pane A corresponds to `bPx` in
pane B; `snap` marks a settle target (JS `snap?: boolean`, absent = false). -/
structure Anchor where
  aPx : ℚ
  bPx : ℚ
  snap : Bool
deriving DecidableEq, Repr

/-- A sanitized anchor point used during map construction (the objects in
the `sorted` / `pts` arrays inside `buildMap`). -/
structure Pt where
  aPx : ℚ
  bPx : ℚ
  snap : Bool
deriving DecidableEq, Repr

/-- One interval of the scroll map (`Segment` in `types.d.ts`): start
position on each of the three axes and the interval's length on each axis. -/
structure Segment where
  aPx : ℚ
  bPx : ℚ
  vPx : ℚ
  aS : ℚ
  bS : ℚ
  vS : ℚ
  snap : Bool
deriving DecidableEq, Repr

/-- Result of `buildMap` (`MapData` in `types.d.ts`). -/
structure MapData where
  segments : List Segment
  vTotal : ℚ
  droppedCount : ℕ
  hasSnap : Bool
deriving DecidableEq, Repr

/-- Default segment used for total list indexing (`List.getD`); proofs
always index within bounds. -/
def dfltSeg : Segment := ⟨0, 0, 0, 0, 0, 0, false⟩

/-- Default point for total list indexing. -/
def dfltPt : Pt := ⟨0, 0, false⟩

/-- JS `Math.round`: round half away from zero upwards, i.e. `⌊x + 1/2⌋`. -/
def jsRound (x : ℚ) : ℚ := ((⌊x + 1/2⌋ : ℤ) : ℚ)

/-- The `.map` step of `buildMap` (index.js 1146-1150): round each anchor
coordinate and clamp it into `[0, sMax]` on its axis. -/
def sanitize (sA sB : ℚ) (e : Anchor) : Pt :=
  ⟨max 0 (min sA (jsRound e.aPx)), max 0 (min sB (jsRound e.bPx)), e.snap⟩

/-- The `.map(...).sort((x, y) => x.aPx - y.aPx)` step of `buildMap`
(index.js 1145-1151); JS `Array.prototype.sort` is stable, as is
insertion sort. -/
def sanitizeSort (anchors : List Anchor) (sA sB : ℚ) : List Pt :=
  List.insertionSort (fun x y => x.aPx ≤ y.aPx) (anchors.map (sanitize sA sB))

/-- The acceptance loop of `buildMap` (index.js 1157-1165).  `lastA` is
`pts[pts.length - 1].aPx` (the most recently accepted anchor's `aPx`,
initially the synthetic `(0,0)`), `lastB` is the JS `lastB` variable.
Returns the accepted points (to be appended after the synthetic head)
and `droppedCount`. -/
def acceptLoop (lastA lastB : ℚ) : List Pt → List Pt × ℕ
  | [] => ([], 0)
  | e :: rest =>
    if lastB ≤ e.bPx ∧ lastA < e.aPx then
      let r := acceptLoop e.aPx e.bPx rest
      (e :: r.1, r.2)
    else
      let r := acceptLoop lastA lastB rest
      (r.1, r.2 + 1)

/-- The full boundary-point list of `buildMap`: synthetic head `(0,0)`,
accepted anchors, synthetic tail `(sA, sB)` (index.js 1154, 1166). -/
def buildPts (anchors : List Anchor) (sA sB : ℚ) : List Pt :=
  (⟨0, 0, false⟩ : Pt) ::
    ((acceptLoop 0 0 (sanitizeSort anchors sA sB)).1 ++ [(⟨sA, sB, false⟩ : Pt)])

/-- The segment-construction loop of `buildMap` (index.js 1168-1180):
one segment per consecutive pair of boundary points, with `vPx`
accumulating prior `vS` values.  Returns the segment list and the final
accumulator (`vCum`, i.e. `vTotal`). -/
def buildSegs : ℚ → List Pt → List Segment × ℚ
  | vCum, p :: q :: rest =>
    let aS := q.aPx - p.aPx
    let bS := q.bPx - p.bPx
    let vS := max aS bS
    let r := buildSegs (vCum + vS) (q :: rest)
    (⟨p.aPx, p.bPx, vCum, aS, bS, vS, p.snap⟩ :: r.1, r.2)
  | vCum, _ => ([], vCum)

/-- Embeds `buildMap(anchors, sMaxA, sMaxB)` (index.js 1142-1188).  Extents are
clamped to `≥ 0`; `hasSnap` is true iff some emitted segment carries the
snap flag (the JS loop sets `hasSnap` exactly when it pushes a segment
with `snap: true`). -/
def buildMap (anchors : List Anchor) (sMaxA sMaxB : ℚ) : MapData :=
  let sA := max 0 sMaxA
  let sB := max 0 sMaxB
  let pts := buildPts anchors sA sB
  let bs := buildSegs 0 pts
  { segments := bs.1, vTotal := bs.2,
    droppedCount := (acceptLoop 0 0 (sanitizeSort anchors sA sB)).2,
    hasSnap := bs.1.any (fun s => s.snap) }

/-- The three axes (`AxisPos` keys `"aPx" | "bPx" | "vPx"`). -/
inductive Axis where
  | a
  | b
  | v
deriving DecidableEq, Repr

/-- Start-position field selection `seg[from]`. -/
def Segment.pos (s : Segment) : Axis → ℚ
  | .a => s.aPx
  | .b => s.bPx
  | .v => s.vPx

/-- Length field selection `seg[SIZE_KEY[from]]` (index.js 1130). -/
def Segment.size (s : Segment) : Axis → ℚ
  | .a => s.aS
  | .b => s.bS
  | .v => s.vS

/-- The binary-search loop of `lookup` (index.js 1207-1213):
`while (lo < hi) { mid = (lo + hi + 1) >> 1; if (segments[mid][from] <= value) lo = mid; else hi = mid - 1; }`. -/
def lookupSearch (segments : List Segment) (fromAx : Axis) (value : ℚ)
    (lo hi : ℕ) : ℕ :=
  if h : lo < hi then
    let mid := (lo + hi + 1) / 2
    if (segments.getD mid dfltSeg).pos fromAx ≤ value then
      lookupSearch segments fromAx value mid hi
    else
      lookupSearch segments fromAx value lo (mid - 1)
  else lo
termination_by hi - lo
decreasing_by
  · omega
  · omega

/-- Embeds `lookup(segments, from, to, value)` (index.js 1201-1219): empty list
returns 0; otherwise binary search for the landing segment, then either
return its target start (zero source length) or interpolate linearly. -/
def lookup (segments : List Segment) (fromAx toAx : Axis) (value : ℚ) : ℚ :=
  if segments.length = 0 then 0
  else
    let lo := lookupSearch segments fromAx value 0 (segments.length - 1)
    let seg := segments.getD lo dfltSeg
    if seg.size fromAx ≤ 0 then seg.pos toAx
    else seg.pos toAx + (value - seg.pos fromAx) / seg.size fromAx * seg.size toAx

/-- Fixed echo-suppression tolerance `ECHO_GUARD_PX` (index.js 1125). -/
def ECHO_GUARD_PX : ℚ := 3

/-- Pump stop threshold `PUMP_STOP_PX` (index.js 1122). -/
def PUMP_STOP_PX : ℚ := 5

/-- Which pane a native scroll event originated from (`source` argument
of `#handleScroll`). -/
inductive Source where
  | a
  | b
deriving DecidableEq, Repr

/-- The controller state touched by the scroll/wheel paths of
`DualScrollSync`: the two panes' live `scrollTop` values, the virtual
position `#vCurrent`, the echo expectations `#expectedA`/`#expectedB`,
the `enabled` flag, `alignOffset`, and the cached (already ensured,
non-dirty) map `#data`.  Events are single-threaded, so each handler is
a function on this state; the `#applying` reentrancy flag is true only
inside `#applyV`'s own writes and is false at every event entry. -/
structure CtrlState where
  paneATop : ℚ
  paneBTop : ℚ
  vCurrent : ℚ
  expectedA : Option ℚ
  expectedB : Option ℚ
  enabled : Bool
  alignOffset : ℚ
  data : MapData
deriving DecidableEq, Repr

/-- Outcome of one event-handler invocation: the new state, whether the
`onSync` callback fired, and whether `ensureMap()` was reached (a map
rebuild can only be triggered through it). -/
structure StepResult where
  st : CtrlState
  syncFired : Bool
  ensuredMap : Bool
deriving DecidableEq, Repr

/-- Embeds `#applyV` (index.js 1356-1366): write both panes from `#vCurrent`
(shifted by `alignOffset`) and record both writes as echo expectations;
fires `onSync`. -/
def applyV (st : CtrlState) : CtrlState :=
  let segs := st.data.segments
  let off := st.alignOffset
  let aTop := lookup segs Axis.v Axis.a st.vCurrent - off
  let bTop := lookup segs Axis.v Axis.b st.vCurrent - off
  { st with paneATop := aTop, paneBTop := bTop,
            expectedA := some aTop, expectedB := some bTop }

/-- The re-sync tail of `#handleScroll` (index.js 1383-1393): convert the
moved pane's offset to a clamped virtual position, write the opposite
pane, and record the write as that pane's expectation. -/
def handleScrollResync (st : CtrlState) (src : Source) : StepResult :=
  let segs := st.data.segments
  if segs.length = 0 then ⟨st, false, true⟩
  else
    let off := st.alignOffset
    let srcTop := match src with | .a => st.paneATop | .b => st.paneBTop
    let fromAx := match src with | .a => Axis.a | .b => Axis.b
    let toAx := match src with | .a => Axis.b | .b => Axis.a
    let v := max 0 (min st.data.vTotal (lookup segs fromAx Axis.v (srcTop + off)))
    let tgtTop := lookup segs Axis.v toAx v - off
    let st2 := match src with
      | .a => { st with vCurrent := v, paneBTop := tgtTop, expectedB := some tgtTop }
      | .b => { st with vCurrent := v, paneATop := tgtTop, expectedA := some tgtTop }
    ⟨st2, true, true⟩

/-- Embeds `#handleScroll` (index.js 1372-1394): ignore when disabled (or while
`#applying`, which is false at event entry); when an expectation is
recorded for the source pane, clear it, and absorb the event when the
pane's offset is within `ECHO_GUARD_PX` of the expectation; otherwise
re-sync the opposite pane. -/
def handleScroll (st : CtrlState) (src : Source) : StepResult :=
  if st.enabled = false then ⟨st, false, false⟩
  else
    let srcTop := match src with | .a => st.paneATop | .b => st.paneBTop
    let expected := match src with | .a => st.expectedA | .b => st.expectedB
    match expected with
    | some e =>
      let st1 := match src with
        | .a => { st with expectedA := none }
        | .b => { st with expectedB := none }
      if |srcTop - e| < ECHO_GUARD_PX then ⟨st1, false, false⟩
      else handleScrollResync st1 src
    | none => handleScrollResync st src

/-- Embeds `#handleWheel(delta)` (index.js 1515-1519): apply `delta` to
`#vCurrent`, clamped into `[0, vTotal]` of the ensured map, then
`#applyV`. -/
def handleWheel (st : CtrlState) (delta : ℚ) : CtrlState :=
  let st1 := { st with vCurrent := max 0 (min st.data.vTotal (st.vCurrent + delta)) }
  applyV st1

/-- Embeds `scrollTo(v)` (index.js 1327-1331): clamp `v` into `[0, vTotal]` and
apply. -/
def scrollTo (st : CtrlState) (v : ℚ) : CtrlState :=
  let st1 := { st with vCurrent := max 0 (min st.data.vTotal v) }
  applyV st1

/-- The empty fallback map installed by `ensureMap` when the anchor
supplier (or the builder) throws (index.js 1314). -/
def emptyMapData : MapData := ⟨[], 0, 0, false⟩

/-- Result of the anchor-supplier callback `getAnchors()`: either the
anchor list or a thrown value (identified by a numeric token; the body of
the JS `try` also covers `buildMap`, whose embedding is total, so one
`thrown` constructor models any exception inside the `try`). -/
inductive SupplierResult where
  | ok : List Anchor → SupplierResult
  | thrown : ℕ → SupplierResult
deriving DecidableEq, Repr

/-- Observable outcome of one `ensureMap()` call: the cached map
afterwards, the dirty flag afterwards, the value passed to `onError`
(when invoked), the value passed to `onMapBuilt` (when invoked), and the
returned map. -/
structure EnsureOutcome where
  data : MapData
  dirty : Bool
  errorArg : Option ℕ
  mapBuiltArg : Option MapData
  ret : MapData
deriving DecidableEq, Repr

/-- Embeds `ensureMap()` (index.js 1307-1321).  `dirty`/`cached` are the
controller's `#dirty`/`#data`; `sA`/`sB` the measured extents
(`max(0, scrollHeight - clientHeight)` per pane); `supplier` the outcome
of calling `getAnchors()`; `hasOnError`/`hasOnMapBuilt` whether the
optional callbacks were supplied. -/
def ensureMap (dirty : Bool) (cached : Option MapData) (supplier : SupplierResult)
    (sA sB : ℚ) (hasOnError hasOnMapBuilt : Bool) : EnsureOutcome :=
  if dirty = true ∨ cached = none then
    let d := match supplier with
      | .ok anchors => buildMap anchors sA sB
      | .thrown _ => emptyMapData
    let errorArg := match supplier with
      | .ok _ => none
      | .thrown e => if hasOnError then some e else none
    ⟨d, false, errorArg, if hasOnMapBuilt then some d else none, d⟩
  else
    ⟨cached.getD emptyMapData, dirty, none, none, cached.getD emptyMapData⟩

/-- The teardown-relevant view of a controller (`destroy`, index.js
1334-1353): flags, the pending frame handle and the frames cancelled so
far, whether the pane references are still non-null, the number of
registered listeners per pane and kind, and whether `#data` is held. -/
structure DestroyView where
  enabled : Bool
  wheelRemaining : ℚ
  snapping : Bool
  pumpRafId : Option ℕ
  cancelledFrames : List ℕ
  panesPresent : Bool
  scrollListenersA : ℕ
  scrollListenersB : ℕ
  wheelListenersA : ℕ
  wheelListenersB : ℕ
  dataPresent : Bool
deriving DecidableEq, Repr

/-- A thrown JS exception surfaced by the teardown model. -/
inductive JsError where
  | typeError
deriving DecidableEq, Repr

/-- Embeds `destroy()` (index.js 1334-1353), field writes in source order:
disable, zero the wheel accumulator, clear snapping, cancel the pending
frame if any, then call `removeEventListener` four times on `paneA` /
`paneB` and null out the pane references and `#data`.  Dereferencing an
already-nulled pane (`this.paneA.removeEventListener` with
`this.paneA === null`, which is the state after a first `destroy()`)
throws a TypeError, modelled as `Except.error`. -/
def destroy (c : DestroyView) : Except JsError DestroyView :=
  let c1 := { c with enabled := false, wheelRemaining := 0, snapping := false }
  let c2 := match c1.pumpRafId with
    | some id => { c1 with cancelledFrames := id :: c1.cancelledFrames, pumpRafId := none }
    | none => c1
  if c2.panesPresent then
    Except.ok { c2 with scrollListenersA := 0, scrollListenersB := 0,
                        wheelListenersA := 0, wheelListenersB := 0,
                        panesPresent := false, dataPresent := false }
  else Except.error JsError.typeError

/-- Ordering invariant maintained by `acceptLoop` relative to the most
recently accepted point `(la, lb)`: each retained point strictly
increases `aPx` and does not decrease `bPx`. -/
def ptsOrdered (la lb : ℚ) : List Pt → Prop
  | [] => True
  | p :: rest => la < p.aPx ∧ lb ≤ p.bPx ∧ ptsOrdered p.aPx p.bPx rest

/-- Consecutive ordering of the final boundary-point list: `aPx` and
`bPx` are nondecreasing between neighbours, and `aPx` strictly increases
except possibly at the last pair (the synthetic tail may coincide with
the last accepted anchor). -/
def ptsChainOK : List Pt → Prop
  | p :: q :: rest =>
      p.aPx ≤ q.aPx ∧ p.bPx ≤ q.bPx ∧ (rest ≠ [] → p.aPx < q.aPx) ∧
        ptsChainOK (q :: rest)
  | _ => True

theorem sanitizeSort_bounds (anchors : List Anchor) (sA sB : ℚ)
    (hA : 0 ≤ sA) (hB : 0 ≤ sB) :
    ∀ p ∈ sanitizeSort anchors sA sB,
      0 ≤ p.aPx ∧ p.aPx ≤ sA ∧ 0 ≤ p.bPx ∧ p.bPx ≤ sB := by
  intro p hp
  have hperm := List.perm_insertionSort (fun x y : Pt => x.aPx ≤ y.aPx)
    (anchors.map (sanitize sA sB))
  have hmem : p ∈ anchors.map (sanitize sA sB) := hperm.mem_iff.mp hp
  rcases List.mem_map.mp hmem with ⟨e, _, rfl⟩
  refine ⟨le_max_left _ _, max_le hA (min_le_left _ _),
    le_max_left _ _, max_le hB (min_le_left _ _)⟩

theorem acceptLoop_bounds (sA sB : ℚ) :
    ∀ (l : List Pt) (la lb : ℚ),
      (∀ p ∈ l, 0 ≤ p.aPx ∧ p.aPx ≤ sA ∧ 0 ≤ p.bPx ∧ p.bPx ≤ sB) →
      ∀ p ∈ (acceptLoop la lb l).1,
        0 ≤ p.aPx ∧ p.aPx ≤ sA ∧ 0 ≤ p.bPx ∧ p.bPx ≤ sB := by
  intro l
  induction l with
  | nil => intro la lb _ p hp; simp [acceptLoop] at hp
  | cons e rest ih =>
    intro la lb hl p hp
    by_cases hc : lb ≤ e.bPx ∧ la < e.aPx
    · simp only [acceptLoop, if_pos hc, List.mem_cons] at hp
      rcases hp with rfl | hp
      · exact hl p (List.mem_cons_self _ _)
      · exact ih e.aPx e.bPx (fun q hq => hl q (List.mem_cons_of_mem _ hq)) p hp
    · simp only [acceptLoop, if_neg hc] at hp
      exact ih la lb (fun q hq => hl q (List.mem_cons_of_mem _ hq)) p hp

theorem acceptLoop_ordered :
    ∀ (l : List Pt) (la lb : ℚ), ptsOrdered la lb (acceptLoop la lb l).1 := by
  intro l
  induction l with
  | nil => intro la lb; simp [acceptLoop, ptsOrdered]
  | cons e rest ih =>
    intro la lb
    by_cases hc : lb ≤ e.bPx ∧ la < e.aPx
    · simp only [acceptLoop, if_pos hc]
      exact ⟨hc.2, hc.1, ih e.aPx e.bPx⟩
    · simp only [acceptLoop, if_neg hc]
      exact ih la lb

theorem acceptLoop_count :
    ∀ (l : List Pt) (la lb : ℚ),
      (acceptLoop la lb l).1.length + (acceptLoop la lb l).2 = l.length := by
  intro l
  induction l with
  | nil => intro la lb; rfl
  | cons e rest ih =>
    intro la lb
    by_cases hc : lb ≤ e.bPx ∧ la < e.aPx
    · simp only [acceptLoop, if_pos hc, List.length_cons]
      have := ih e.aPx e.bPx
      omega
    · simp only [acceptLoop, if_neg hc, List.length_cons]
      have := ih la lb
      omega

theorem ptsChainOK_build (sA sB : ℚ) :
    ∀ (acc : List Pt) (p : Pt), ptsOrdered p.aPx p.bPx acc →
      (∀ x ∈ acc, x.aPx ≤ sA ∧ x.bPx ≤ sB) →
      p.aPx ≤ sA → p.bPx ≤ sB →
      ptsChainOK (p :: (acc ++ [(⟨sA, sB, false⟩ : Pt)])) := by
  intro acc
  induction acc with
  | nil =>
    intro p _ _ hpa hpb
    exact ⟨hpa, hpb, fun h => absurd rfl h, trivial⟩
  | cons q acc ih =>
    intro p hord hbnd hpa hpb
    obtain ⟨h1, h2, h3⟩ := hord
    refine ⟨le_of_lt h1, h2, fun _ => h1, ?_⟩
    exact ih q h3 (fun x hx => hbnd x (List.mem_cons_of_mem _ hx))
      (hbnd q (List.mem_cons_self _ _)).1 (hbnd q (List.mem_cons_self _ _)).2

theorem buildPts_chainOK (anchors : List Anchor) (sA sB : ℚ)
    (hA : 0 ≤ sA) (hB : 0 ≤ sB) :
    ptsChainOK (buildPts anchors sA sB) := by
  have hord := acceptLoop_ordered (sanitizeSort anchors sA sB) 0 0
  have hbnd := acceptLoop_bounds sA sB (sanitizeSort anchors sA sB) 0 0
    (sanitizeSort_bounds anchors sA sB hA hB)
  exact ptsChainOK_build sA sB _ ⟨0, 0, false⟩ hord
    (fun x hx => ⟨(hbnd x hx).2.1, (hbnd x hx).2.2.2⟩) hA hB

theorem buildPts_bounds (anchors : List Anchor) (sA sB : ℚ)
    (hA : 0 ≤ sA) (hB : 0 ≤ sB) :
    ∀ p ∈ buildPts anchors sA sB,
      0 ≤ p.aPx ∧ p.aPx ≤ sA ∧ 0 ≤ p.bPx ∧ p.bPx ≤ sB := by
  intro p hp
  rcases List.mem_cons.mp hp with rfl | hp
  · exact ⟨le_refl 0, hA, le_refl 0, hB⟩
  rcases List.mem_append.mp hp with hp | hp
  · exact acceptLoop_bounds sA sB (sanitizeSort anchors sA sB) 0 0
      (sanitizeSort_bounds anchors sA sB hA hB) p hp
  · rcases List.mem_singleton.mp hp with rfl
    exact ⟨hA, le_refl sA, hB, le_refl sB⟩

theorem buildPts_length (anchors : List Anchor) (sA sB : ℚ) :
    (buildPts anchors sA sB).length =
      (acceptLoop 0 0 (sanitizeSort anchors sA sB)).1.length + 2 := by
  simp [buildPts]

theorem buildPts_head (anchors : List Anchor) (sA sB : ℚ) :
    (buildPts anchors sA sB).getD 0 dfltPt = (⟨0, 0, false⟩ : Pt) := rfl

theorem getD_append_last {α : Type} :
    ∀ (l : List α) (x d : α), (l ++ [x]).getD l.length d = x := by
  intro l
  induction l with
  | nil => intro x d; rfl
  | cons a l ih => intro x d; simp only [List.cons_append, List.length_cons, List.getD_cons_succ]; exact ih x d

theorem buildPts_last (anchors : List Anchor) (sA sB : ℚ) :
    (buildPts anchors sA sB).getD ((buildPts anchors sA sB).length - 1) dfltPt =
      (⟨sA, sB, false⟩ : Pt) := by
  rw [buildPts_length]
  show ((⟨0, 0, false⟩ : Pt) ::
    ((acceptLoop 0 0 (sanitizeSort anchors sA sB)).1 ++ [(⟨sA, sB, false⟩ : Pt)])).getD
      ((acceptLoop 0 0 (sanitizeSort anchors sA sB)).1.length + 1) dfltPt = _
  rw [List.getD_cons_succ]
  exact getD_append_last _ _ _

theorem buildSegs_length :
    ∀ (rest : List Pt) (p : Pt) (v : ℚ),
      (buildSegs v (p :: rest)).1.length = rest.length := by
  intro rest
  induction rest with
  | nil => intro p v; rfl
  | cons q rest ih => intro p v; simp [buildSegs, ih q]

theorem buildSegs_start :
    ∀ (l : List Pt) (v : ℚ) (i : ℕ), i + 1 < l.length →
      ((buildSegs v l).1.getD i dfltSeg).aPx = (l.getD i dfltPt).aPx ∧
      ((buildSegs v l).1.getD i dfltSeg).bPx = (l.getD i dfltPt).bPx := by
  intro l
  induction l with
  | nil => intro v i hi; simp at hi
  | cons p l ih =>
    intro v i hi
    cases l with
    | nil => simp at hi
    | cons q rest =>
      cases i with
      | zero => exact ⟨rfl, rfl⟩
      | succ j =>
        simp only [buildSegs, List.getD_cons_succ]
        exact ih (v + max (q.aPx - p.aPx) (q.bPx - p.bPx)) j
          (by simpa using Nat.lt_of_succ_lt_succ hi)

theorem buildSegs_sizes :
    ∀ (l : List Pt) (v : ℚ) (i : ℕ), i + 1 < l.length →
      ((buildSegs v l).1.getD i dfltSeg).aS =
        (l.getD (i+1) dfltPt).aPx - (l.getD i dfltPt).aPx ∧
      ((buildSegs v l).1.getD i dfltSeg).bS =
        (l.getD (i+1) dfltPt).bPx - (l.getD i dfltPt).bPx ∧
      ((buildSegs v l).1.getD i dfltSeg).vS =
        max (((buildSegs v l).1.getD i dfltSeg).aS)
          (((buildSegs v l).1.getD i dfltSeg).bS) := by
  intro l
  induction l with
  | nil => intro v i hi; simp at hi
  | cons p l ih =>
    intro v i hi
    cases l with
    | nil => simp at hi
    | cons q rest =>
      cases i with
      | zero => exact ⟨rfl, rfl, rfl⟩
      | succ j =>
        simp only [buildSegs, List.getD_cons_succ]
        exact ih (v + max (q.aPx - p.aPx) (q.bPx - p.bPx)) j
          (by simpa using Nat.lt_of_succ_lt_succ hi)

theorem buildSegs_vPx_head :
    ∀ (l : List Pt) (v : ℚ), 2 ≤ l.length →
      ((buildSegs v l).1.getD 0 dfltSeg).vPx = v := by
  intro l v hl
  match l with
  | p :: q :: rest => rfl

theorem buildSegs_vPx_chain :
    ∀ (l : List Pt) (v : ℚ) (i : ℕ), i + 2 < l.length →
      ((buildSegs v l).1.getD (i+1) dfltSeg).vPx =
        ((buildSegs v l).1.getD i dfltSeg).vPx +
          ((buildSegs v l).1.getD i dfltSeg).vS := by
  intro l
  induction l with
  | nil => intro v i hi; simp at hi
  | cons p l ih =>
    intro v i hi
    cases l with
    | nil => simp at hi
    | cons q rest =>
      cases i with
      | zero =>
        simp only [buildSegs, List.getD_cons_succ, List.getD_cons_zero]
        have h2 : 2 ≤ (q :: rest).length := by
          simp only [List.length_cons] at hi ⊢; omega
        rw [buildSegs_vPx_head (q :: rest) _ h2]
      | succ j =>
        simp only [buildSegs, List.getD_cons_succ]
        exact ih (v + max (q.aPx - p.aPx) (q.bPx - p.bPx)) j
          (by simpa using Nat.lt_of_succ_lt_succ hi)

theorem buildSegs_total :
    ∀ (l : List Pt) (v : ℚ), 2 ≤ l.length →
      ((buildSegs v l).1.getD ((buildSegs v l).1.length - 1) dfltSeg).vPx +
        ((buildSegs v l).1.getD ((buildSegs v l).1.length - 1) dfltSeg).vS =
          (buildSegs v l).2 := by
  intro l
  induction l with
  | nil => intro v hl; simp at hl
  | cons p l ih =>
    intro v hl
    cases l with
    | nil => simp at hl
    | cons q rest =>
      cases rest with
      | nil =>
        show ((⟨p.aPx, p.bPx, v, _, _, _, p.snap⟩ : Segment)).vPx + _ = _
        simp [buildSegs]
      | cons r rest2 =>
        have h2 : 2 ≤ (q :: r :: rest2).length := by simp
        have ihh := ih (v + max (q.aPx - p.aPx) (q.bPx - p.bPx)) h2
        have hlen : (buildSegs v (p :: q :: r :: rest2)).1.length =
            (buildSegs (v + max (q.aPx - p.aPx) (q.bPx - p.bPx)) (q :: r :: rest2)).1.length + 1 := by
          simp [buildSegs]
        have hlen2 : 1 ≤ (buildSegs (v + max (q.aPx - p.aPx) (q.bPx - p.bPx)) (q :: r :: rest2)).1.length := by
          rw [buildSegs_length]; simp
        calc ((buildSegs v (p :: q :: r :: rest2)).1.getD
                ((buildSegs v (p :: q :: r :: rest2)).1.length - 1) dfltSeg).vPx +
              ((buildSegs v (p :: q :: r :: rest2)).1.getD
                ((buildSegs v (p :: q :: r :: rest2)).1.length - 1) dfltSeg).vS
            = ((buildSegs (v + max (q.aPx - p.aPx) (q.bPx - p.bPx)) (q :: r :: rest2)).1.getD
                ((buildSegs (v + max (q.aPx - p.aPx) (q.bPx - p.bPx)) (q :: r :: rest2)).1.length - 1) dfltSeg).vPx +
              ((buildSegs (v + max (q.aPx - p.aPx) (q.bPx - p.bPx)) (q :: r :: rest2)).1.getD
                ((buildSegs (v + max (q.aPx - p.aPx) (q.bPx - p.bPx)) (q :: r :: rest2)).1.length - 1) dfltSeg).vS := by
              rw [hlen]
              have : (buildSegs (v + max (q.aPx - p.aPx) (q.bPx - p.bPx)) (q :: r :: rest2)).1.length + 1 - 1 =
                  ((buildSegs (v + max (q.aPx - p.aPx) (q.bPx - p.bPx)) (q :: r :: rest2)).1.length - 1) + 1 := by omega
              rw [this]
              simp only [buildSegs, List.getD_cons_succ]
          _ = (buildSegs (v + max (q.aPx - p.aPx) (q.bPx - p.bPx)) (q :: r :: rest2)).2 := ihh
          _ = (buildSegs v (p :: q :: r :: rest2)).2 := by simp [buildSegs]

theorem buildSegs_sum :
    ∀ (l : List Pt) (v : ℚ),
      (buildSegs v l).2 = v + ((buildSegs v l).1.map Segment.vS).sum := by
  intro l
  induction l with
  | nil => intro v; simp [buildSegs]
  | cons p l ih =>
    intro v
    cases l with
    | nil => simp [buildSegs]
    | cons q rest =>
      simp only [buildSegs, List.map_cons, List.sum_cons]
      rw [ih (v + max (q.aPx - p.aPx) (q.bPx - p.bPx))]
      ring

theorem ptsChainOK_getD :
    ∀ (l : List Pt), ptsChainOK l → ∀ i, i + 1 < l.length →
      (l.getD i dfltPt).aPx ≤ (l.getD (i+1) dfltPt).aPx ∧
      (l.getD i dfltPt).bPx ≤ (l.getD (i+1) dfltPt).bPx ∧
      (i + 2 < l.length → (l.getD i dfltPt).aPx < (l.getD (i+1) dfltPt).aPx) := by
  intro l
  induction l with
  | nil => intro _ i hi; simp at hi
  | cons p l ih =>
    intro hc i hi
    cases l with
    | nil => simp at hi
    | cons q rest =>
      obtain ⟨h1, h2, h3, h4⟩ := hc
      cases i with
      | zero =>
        refine ⟨h1, h2, fun hlen => h3 ?_⟩
        intro hrest
        rw [hrest] at hlen
        simp at hlen
      | succ j =>
        simp only [List.getD_cons_succ]
        have hj : j + 1 < (q :: rest).length := by
          simp only [List.length_cons] at hi ⊢; omega
        refine ⟨(ih h4 j hj).1, (ih h4 j hj).2.1, fun hlen => (ih h4 j hj).2.2 ?_⟩
        simp only [List.length_cons] at hlen ⊢; omega

theorem chain_mono (f g : ℕ → ℚ) (n : ℕ)
    (hchain : ∀ i, i + 1 < n → f (i+1) = f i + g i)
    (hg : ∀ i, i + 1 < n → 0 ≤ g i) :
    ∀ i j, i ≤ j → j < n → f i ≤ f j := by
  intro i j hij hj
  induction j with
  | zero =>
    have : i = 0 := Nat.le_zero.mp hij
    rw [this]
  | succ m ihm =>
    rcases Nat.eq_or_lt_of_le hij with rfl | hlt
    · exact le_refl _
    · have hi_m : i ≤ m := Nat.lt_succ_iff.mp hlt
      have hm : m < n := Nat.lt_of_succ_lt hj
      have h1 := ihm hi_m hm
      rw [hchain m hj]
      have h2 := hg m hj
      linarith

theorem buildMap_segs_length (anchors : List Anchor) (eA eB : ℚ) :
    (buildMap anchors eA eB).segments.length + 1 =
      (buildPts anchors (max 0 eA) (max 0 eB)).length := by
  show (buildSegs 0 (buildPts anchors (max 0 eA) (max 0 eB))).1.length + 1 = _
  rw [buildPts, buildSegs_length]
  simp

theorem buildPts_length_ge (anchors : List Anchor) (sA sB : ℚ) :
    2 ≤ (buildPts anchors sA sB).length := by
  rw [buildPts_length]; omega

theorem buildMap_length_pos (anchors : List Anchor) (eA eB : ℚ) :
    1 ≤ (buildMap anchors eA eB).segments.length := by
  have h := buildMap_segs_length anchors eA eB
  have h2 := buildPts_length_ge anchors (max 0 eA) (max 0 eB)
  omega

theorem buildMap_chain (anchors : List Anchor) (eA eB : ℚ) :
    ∀ i, i + 1 < (buildMap anchors eA eB).segments.length →
      ((buildMap anchors eA eB).segments.getD (i+1) dfltSeg).aPx =
        ((buildMap anchors eA eB).segments.getD i dfltSeg).aPx +
          ((buildMap anchors eA eB).segments.getD i dfltSeg).aS ∧
      ((buildMap anchors eA eB).segments.getD (i+1) dfltSeg).bPx =
        ((buildMap anchors eA eB).segments.getD i dfltSeg).bPx +
          ((buildMap anchors eA eB).segments.getD i dfltSeg).bS ∧
      ((buildMap anchors eA eB).segments.getD (i+1) dfltSeg).vPx =
        ((buildMap anchors eA eB).segments.getD i dfltSeg).vPx +
          ((buildMap anchors eA eB).segments.getD i dfltSeg).vS := by
  intro i hi
  have hlen := buildMap_segs_length anchors eA eB
  set pts := buildPts anchors (max 0 eA) (max 0 eB) with hpts
  have hseg : (buildMap anchors eA eB).segments = (buildSegs 0 pts).1 := rfl
  rw [hseg] at hi ⊢
  rw [hseg] at hlen
  have hi1 : i + 1 < pts.length := by omega
  have hi2 : i + 2 < pts.length := by omega
  have hs1 := buildSegs_start pts 0 i hi1
  have hs2 := buildSegs_start pts 0 (i+1) hi2
  have hz1 := buildSegs_sizes pts 0 i hi1
  have hv := buildSegs_vPx_chain pts 0 i hi2
  refine ⟨?_, ?_, hv⟩
  · rw [hs2.1, hs1.1, hz1.1]; ring
  · rw [hs2.2, hs1.2, hz1.2.1]; ring

theorem buildMap_first (anchors : List Anchor) (eA eB : ℚ) :
    ((buildMap anchors eA eB).segments.getD 0 dfltSeg).aPx = 0 ∧
    ((buildMap anchors eA eB).segments.getD 0 dfltSeg).bPx = 0 ∧
    ((buildMap anchors eA eB).segments.getD 0 dfltSeg).vPx = 0 := by
  set pts := buildPts anchors (max 0 eA) (max 0 eB) with hpts
  have hseg : (buildMap anchors eA eB).segments = (buildSegs 0 pts).1 := rfl
  rw [hseg]
  have h2 : 2 ≤ pts.length := buildPts_length_ge anchors _ _
  have hs := buildSegs_start pts 0 0 (by omega)
  have hv := buildSegs_vPx_head pts 0 h2
  have hh : pts.getD 0 dfltPt = (⟨0, 0, false⟩ : Pt) := buildPts_head anchors _ _
  refine ⟨?_, ?_, hv⟩
  · rw [hs.1, hh]
  · rw [hs.2, hh]

theorem buildMap_last (anchors : List Anchor) (eA eB : ℚ) :
    ((buildMap anchors eA eB).segments.getD
        ((buildMap anchors eA eB).segments.length - 1) dfltSeg).aPx +
      ((buildMap anchors eA eB).segments.getD
        ((buildMap anchors eA eB).segments.length - 1) dfltSeg).aS = max 0 eA ∧
    ((buildMap anchors eA eB).segments.getD
        ((buildMap anchors eA eB).segments.length - 1) dfltSeg).bPx +
      ((buildMap anchors eA eB).segments.getD
        ((buildMap anchors eA eB).segments.length - 1) dfltSeg).bS = max 0 eB ∧
    ((buildMap anchors eA eB).segments.getD
        ((buildMap anchors eA eB).segments.length - 1) dfltSeg).vPx +
      ((buildMap anchors eA eB).segments.getD
        ((buildMap anchors eA eB).segments.length - 1) dfltSeg).vS =
      (buildMap anchors eA eB).vTotal := by
  have hlen := buildMap_segs_length anchors eA eB
  have hn1 := buildMap_length_pos anchors eA eB
  set pts := buildPts anchors (max 0 eA) (max 0 eB) with hpts
  have hseg : (buildMap anchors eA eB).segments = (buildSegs 0 pts).1 := rfl
  have htoteq : (buildMap anchors eA eB).vTotal = (buildSegs 0 pts).2 := rfl
  rw [hseg] at hlen ⊢
  rw [htoteq]
  have h2 : 2 ≤ pts.length := buildPts_length_ge anchors _ _
  have hidx : (buildSegs 0 pts).1.length - 1 + 1 < pts.length := by omega
  have hs := buildSegs_start pts 0 ((buildSegs 0 pts).1.length - 1) hidx
  have hz := buildSegs_sizes pts 0 ((buildSegs 0 pts).1.length - 1) hidx
  have hpeq : (buildSegs 0 pts).1.length - 1 + 1 = pts.length - 1 := by omega
  have hlast := buildPts_last anchors (max 0 eA) (max 0 eB)
  rw [← hpts] at hlast
  have hlA : (pts.getD (pts.length - 1) dfltPt).aPx = max 0 eA := by rw [hlast]
  have hlB : (pts.getD (pts.length - 1) dfltPt).bPx = max 0 eB := by rw [hlast]
  refine ⟨?_, ?_, ?_⟩
  · rw [hs.1, hz.1, hpeq, hlA]; ring
  · rw [hs.2, hz.2.1, hpeq, hlB]; ring
  · exact buildSegs_total pts 0 h2

theorem getD_mem {α : Type} :
    ∀ (l : List α) (i : ℕ) (d : α), i < l.length → l.getD i d ∈ l := by
  intro l
  induction l with
  | nil => intro i d h; simp at h
  | cons a l ih =>
    intro i d h
    cases i with
    | zero => exact List.mem_cons_self _ _
    | succ j =>
      exact List.mem_cons_of_mem _ (ih j d (by simpa using Nat.lt_of_succ_lt_succ h))

theorem buildMap_vS (anchors : List Anchor) (eA eB : ℚ) :
    ∀ i, i < (buildMap anchors eA eB).segments.length →
      ((buildMap anchors eA eB).segments.getD i dfltSeg).vS =
        max (((buildMap anchors eA eB).segments.getD i dfltSeg).aS)
          (((buildMap anchors eA eB).segments.getD i dfltSeg).bS) := by
  intro i hi
  have hlen := buildMap_segs_length anchors eA eB
  have hseg : (buildMap anchors eA eB).segments =
    (buildSegs 0 (buildPts anchors (max 0 eA) (max 0 eB))).1 := rfl
  rw [hseg] at hi ⊢
  exact (buildSegs_sizes _ 0 i (by rw [← hseg] at hi; omega)).2.2

theorem buildMap_sizes_nonneg (anchors : List Anchor) (eA eB : ℚ) :
    ∀ i, i < (buildMap anchors eA eB).segments.length →
      0 ≤ ((buildMap anchors eA eB).segments.getD i dfltSeg).aS ∧
      0 ≤ ((buildMap anchors eA eB).segments.getD i dfltSeg).bS ∧
      0 ≤ ((buildMap anchors eA eB).segments.getD i dfltSeg).vS ∧
      ((buildMap anchors eA eB).segments.getD i dfltSeg).aS ≤
        ((buildMap anchors eA eB).segments.getD i dfltSeg).vS ∧
      ((buildMap anchors eA eB).segments.getD i dfltSeg).bS ≤
        ((buildMap anchors eA eB).segments.getD i dfltSeg).vS := by
  intro i hi
  have hlen := buildMap_segs_length anchors eA eB
  have hchain := buildPts_chainOK anchors (max 0 eA) (max 0 eB)
    (le_max_left 0 eA) (le_max_left 0 eB)
  have hseg : (buildMap anchors eA eB).segments =
    (buildSegs 0 (buildPts anchors (max 0 eA) (max 0 eB))).1 := rfl
  have hi1 : i + 1 < (buildPts anchors (max 0 eA) (max 0 eB)).length := by omega
  have hz := buildSegs_sizes (buildPts anchors (max 0 eA) (max 0 eB)) 0 i hi1
  have hord := ptsChainOK_getD _ hchain i hi1
  rw [hseg] at hi ⊢
  have haS : 0 ≤ ((buildSegs 0 (buildPts anchors (max 0 eA) (max 0 eB))).1.getD i dfltSeg).aS := by
    rw [hz.1]; linarith [hord.1]
  have hbS : 0 ≤ ((buildSegs 0 (buildPts anchors (max 0 eA) (max 0 eB))).1.getD i dfltSeg).bS := by
    rw [hz.2.1]; linarith [hord.2.1]
  refine ⟨haS, hbS, ?_, ?_, ?_⟩
  · rw [hz.2.2]; exact le_trans haS (le_max_left _ _)
  · rw [hz.2.2]; exact le_max_left _ _
  · rw [hz.2.2]; exact le_max_right _ _

theorem buildMap_aS_pos_mid (anchors : List Anchor) (eA eB : ℚ) :
    ∀ i, i + 1 < (buildMap anchors eA eB).segments.length →
      0 < ((buildMap anchors eA eB).segments.getD i dfltSeg).aS := by
  intro i hi
  have hlen := buildMap_segs_length anchors eA eB
  have hchain := buildPts_chainOK anchors (max 0 eA) (max 0 eB)
    (le_max_left 0 eA) (le_max_left 0 eB)
  have hseg : (buildMap anchors eA eB).segments =
    (buildSegs 0 (buildPts anchors (max 0 eA) (max 0 eB))).1 := rfl
  have hi1 : i + 1 < (buildPts anchors (max 0 eA) (max 0 eB)).length := by omega
  have hi2 : i + 2 < (buildPts anchors (max 0 eA) (max 0 eB)).length := by omega
  have hz := buildSegs_sizes (buildPts anchors (max 0 eA) (max 0 eB)) 0 i hi1
  have hord := ptsChainOK_getD _ hchain i hi1
  rw [hseg, hz.1]
  linarith [hord.2.2 hi2]

theorem buildMap_vS_pos_mid (anchors : List Anchor) (eA eB : ℚ) :
    ∀ i, i + 1 < (buildMap anchors eA eB).segments.length →
      0 < ((buildMap anchors eA eB).segments.getD i dfltSeg).vS := by
  intro i hi
  have h1 := buildMap_aS_pos_mid anchors eA eB i hi
  have h2 := (buildMap_sizes_nonneg anchors eA eB i (by omega)).2.2.2.1
  linarith

theorem buildMap_pos_nonneg (anchors : List Anchor) (eA eB : ℚ) :
    ∀ i, i < (buildMap anchors eA eB).segments.length →
      0 ≤ ((buildMap anchors eA eB).segments.getD i dfltSeg).aPx ∧
      0 ≤ ((buildMap anchors eA eB).segments.getD i dfltSeg).bPx ∧
      0 ≤ ((buildMap anchors eA eB).segments.getD i dfltSeg).vPx := by
  intro i hi
  have hlen := buildMap_segs_length anchors eA eB
  have hseg : (buildMap anchors eA eB).segments =
    (buildSegs 0 (buildPts anchors (max 0 eA) (max 0 eB))).1 := rfl
  have hi1 : i + 1 < (buildPts anchors (max 0 eA) (max 0 eB)).length := by omega
  have hs := buildSegs_start (buildPts anchors (max 0 eA) (max 0 eB)) 0 i hi1
  have hb := buildPts_bounds anchors (max 0 eA) (max 0 eB)
    (le_max_left 0 eA) (le_max_left 0 eB)
    ((buildPts anchors (max 0 eA) (max 0 eB)).getD i dfltPt)
    (getD_mem _ i dfltPt (by omega))
  have hvmono := chain_mono
    (fun i => ((buildMap anchors eA eB).segments.getD i dfltSeg).vPx)
    (fun i => ((buildMap anchors eA eB).segments.getD i dfltSeg).vS)
    (buildMap anchors eA eB).segments.length
    (fun j hj => (buildMap_chain anchors eA eB j hj).2.2)
    (fun j hj => (buildMap_sizes_nonneg anchors eA eB j (by omega)).2.2.1)
    0 i (Nat.zero_le i) hi
  refine ⟨?_, ?_, ?_⟩
  · rw [hseg, hs.1]; exact hb.1
  · rw [hseg, hs.2]; exact hb.2.2.1
  · have h0 := (buildMap_first anchors eA eB).2.2
    have hv2 : ((buildMap anchors eA eB).segments.getD 0 dfltSeg).vPx ≤
        ((buildMap anchors eA eB).segments.getD i dfltSeg).vPx := hvmono
    rw [h0] at hv2
    exact hv2

theorem buildMap_mono (anchors : List Anchor) (eA eB : ℚ) (ax : Axis) :
    ∀ i j, i ≤ j → j < (buildMap anchors eA eB).segments.length →
      ((buildMap anchors eA eB).segments.getD i dfltSeg).pos ax ≤
        ((buildMap anchors eA eB).segments.getD j dfltSeg).pos ax := by
  intro i j hij hj
  refine chain_mono
    (fun i => ((buildMap anchors eA eB).segments.getD i dfltSeg).pos ax)
    (fun i => ((buildMap anchors eA eB).segments.getD i dfltSeg).size ax)
    (buildMap anchors eA eB).segments.length ?_ ?_ i j hij hj
  · intro m hm
    have hc := buildMap_chain anchors eA eB m hm
    cases ax with
    | a => exact hc.1
    | b => exact hc.2.1
    | v => exact hc.2.2
  · intro m hm
    have hz := buildMap_sizes_nonneg anchors eA eB m (by omega)
    cases ax with
    | a => exact hz.1
    | b => exact hz.2.1
    | v => exact hz.2.2.1

theorem lookupSearch_step (segs : List Segment) (ax : Axis) (value : ℚ)
    (lo hi : ℕ) (h : lo < hi) :
    lookupSearch segs ax value lo hi =
      if (segs.getD ((lo+hi+1)/2) dfltSeg).pos ax ≤ value then
        lookupSearch segs ax value ((lo+hi+1)/2) hi
      else lookupSearch segs ax value lo ((lo+hi+1)/2 - 1) := by
  rw [lookupSearch]
  simp [h]

theorem lookupSearch_stop (segs : List Segment) (ax : Axis) (value : ℚ)
    (lo hi : ℕ) (h : ¬ lo < hi) :
    lookupSearch segs ax value lo hi = lo := by
  rw [lookupSearch]
  simp [h]

theorem lookupSearch_spec (segs : List Segment) (ax : Axis) (value : ℚ) :
    ∀ (k lo hi : ℕ), hi - lo ≤ k → hi < segs.length →
      (∀ i j, i ≤ j → j < segs.length →
        (segs.getD i dfltSeg).pos ax ≤ (segs.getD j dfltSeg).pos ax) →
      lo ≤ hi → (segs.getD lo dfltSeg).pos ax ≤ value →
      lo ≤ lookupSearch segs ax value lo hi ∧
      lookupSearch segs ax value lo hi ≤ hi ∧
      (segs.getD (lookupSearch segs ax value lo hi) dfltSeg).pos ax ≤ value ∧
      ∀ j, j ≤ hi → (segs.getD j dfltSeg).pos ax ≤ value →
        j ≤ lookupSearch segs ax value lo hi := by
  intro k
  induction k with
  | zero =>
    intro lo hi hk hhi hmono hlohi hlo
    have heq : ¬ lo < hi := by omega
    rw [lookupSearch_stop segs ax value lo hi heq]
    exact ⟨le_refl lo, hlohi, hlo, fun j hj _ => by omega⟩
  | succ k ih =>
    intro lo hi hk hhi hmono hlohi hlo
    by_cases h : lo < hi
    · rw [lookupSearch_step segs ax value lo hi h]
      have hmlo : lo < (lo + hi + 1) / 2 := by omega
      have hmhi : (lo + hi + 1) / 2 ≤ hi := by omega
      by_cases hm : (segs.getD ((lo+hi+1)/2) dfltSeg).pos ax ≤ value
      · rw [if_pos hm]
        have hrec := ih ((lo+hi+1)/2) hi (by omega) hhi hmono hmhi hm
        exact ⟨le_trans (le_of_lt hmlo) hrec.1, hrec.2.1, hrec.2.2.1, hrec.2.2.2⟩
      · rw [if_neg hm]
        have hrec := ih lo ((lo+hi+1)/2 - 1) (by omega)
          (by omega) hmono (by omega) hlo
        refine ⟨hrec.1, by omega, hrec.2.2.1, ?_⟩
        intro j hj hjv
        by_cases hjm : j ≤ (lo+hi+1)/2 - 1
        · exact hrec.2.2.2 j hjm hjv
        · exfalso
          have hge : (lo+hi+1)/2 ≤ j := by omega
          have := hmono ((lo+hi+1)/2) j hge (by omega)
          exact hm (le_trans this hjv)
    · rw [lookupSearch_stop segs ax value lo hi h]
      exact ⟨le_refl lo, hlohi, hlo, fun j hj _ => by omega⟩

theorem lookupSearch_all_above (segs : List Segment) (ax : Axis) (value : ℚ) :
    ∀ (k lo hi : ℕ), hi - lo ≤ k → hi < segs.length →
      (∀ i j, i ≤ j → j < segs.length →
        (segs.getD i dfltSeg).pos ax ≤ (segs.getD j dfltSeg).pos ax) →
      lo ≤ hi → value < (segs.getD lo dfltSeg).pos ax →
      lookupSearch segs ax value lo hi = lo := by
  intro k
  induction k with
  | zero =>
    intro lo hi hk hhi hmono hlohi hlo
    exact lookupSearch_stop segs ax value lo hi (by omega)
  | succ k ih =>
    intro lo hi hk hhi hmono hlohi hlo
    by_cases h : lo < hi
    · rw [lookupSearch_step segs ax value lo hi h]
      have hm : ¬ (segs.getD ((lo+hi+1)/2) dfltSeg).pos ax ≤ value := by
        have := hmono lo ((lo+hi+1)/2) (by omega) (by omega)
        intro hc
        exact absurd (le_trans this hc) (not_le.mpr hlo)
      rw [if_neg hm]
      exact ih lo ((lo+hi+1)/2 - 1) (by omega) (by omega) hmono (by omega) hlo
    · exact lookupSearch_stop segs ax value lo hi h

theorem lookup_eval (segs : List Segment) (fromAx toAx : Axis) (value : ℚ)
    (hne : segs.length ≠ 0) :
    lookup segs fromAx toAx value =
      (if (segs.getD (lookupSearch segs fromAx value 0 (segs.length - 1)) dfltSeg).size fromAx ≤ 0
       then (segs.getD (lookupSearch segs fromAx value 0 (segs.length - 1)) dfltSeg).pos toAx
       else (segs.getD (lookupSearch segs fromAx value 0 (segs.length - 1)) dfltSeg).pos toAx +
         (value - (segs.getD (lookupSearch segs fromAx value 0 (segs.length - 1)) dfltSeg).pos fromAx) /
           (segs.getD (lookupSearch segs fromAx value 0 (segs.length - 1)) dfltSeg).size fromAx *
           (segs.getD (lookupSearch segs fromAx value 0 (segs.length - 1)) dfltSeg).size toAx) := by
  rw [lookup, if_neg hne]

theorem roundtrip_pane_core (segs : List Segment) (X : Axis) (sX : ℚ) (x : ℚ)
    (hn : 1 ≤ segs.length)
    (hchainX : ∀ i, i + 1 < segs.length →
      (segs.getD (i+1) dfltSeg).pos X =
        (segs.getD i dfltSeg).pos X + (segs.getD i dfltSeg).size X)
    (hchainV : ∀ i, i + 1 < segs.length →
      (segs.getD (i+1) dfltSeg).pos Axis.v =
        (segs.getD i dfltSeg).pos Axis.v + (segs.getD i dfltSeg).size Axis.v)
    (hX0 : (segs.getD 0 dfltSeg).pos X = 0)
    (hXlast : (segs.getD (segs.length - 1) dfltSeg).pos X +
      (segs.getD (segs.length - 1) dfltSeg).size X = sX)
    (hsz : ∀ i, i < segs.length →
      0 ≤ (segs.getD i dfltSeg).size X ∧ 0 ≤ (segs.getD i dfltSeg).size Axis.v ∧
        (segs.getD i dfltSeg).size X ≤ (segs.getD i dfltSeg).size Axis.v)
    (hx0 : 0 ≤ x) (hxs : x ≤ sX) :
    lookup segs Axis.v X (lookup segs X Axis.v x) = x := by
  have hne : segs.length ≠ 0 := by omega
  have hmonoX : ∀ i j, i ≤ j → j < segs.length →
      (segs.getD i dfltSeg).pos X ≤ (segs.getD j dfltSeg).pos X :=
    chain_mono _ _ _ hchainX (fun i hi => (hsz i (by omega)).1)
  have hmonoV : ∀ i j, i ≤ j → j < segs.length →
      (segs.getD i dfltSeg).pos Axis.v ≤ (segs.getD j dfltSeg).pos Axis.v :=
    chain_mono _ _ _ hchainV (fun i hi => (hsz i (by omega)).2.1)
  set n := segs.length with hnn
  have hlo0 : (segs.getD 0 dfltSeg).pos X ≤ x := by rw [hX0]; exact hx0
  have hspec := lookupSearch_spec segs X x (n-1) 0 (n-1) (by omega) (by omega)
    hmonoX (by omega) hlo0
  set r := lookupSearch segs X x 0 (n-1) with hr
  obtain ⟨-, hrhi, hrx, hmax⟩ := hspec
  have hrn : r < n := by omega
  have hup : r < n - 1 → x < (segs.getD (r+1) dfltSeg).pos X := by
    intro hlt
    by_contra hc
    push_neg at hc
    have := hmax (r+1) (by omega) hc
    omega
  rw [lookup_eval segs X Axis.v x hne, ← hr]
  by_cases hXr : (segs.getD r dfltSeg).size X ≤ 0
  · rw [if_pos hXr]
    have hXz : (segs.getD r dfltSeg).size X = 0 :=
      le_antisymm hXr (hsz r hrn).1
    have hrlast : r = n - 1 := by
      by_contra hrne
      have hlt : r < n - 1 := by omega
      have h1 := hup hlt
      have h2 := hchainX r (by omega)
      rw [h2, hXz, add_zero] at h1
      exact absurd hrx (not_le.mpr h1)
    have hxeq : x = (segs.getD r dfltSeg).pos X := by
      have : sX = (segs.getD r dfltSeg).pos X := by
        rw [← hXlast, ← hrlast, hXz, add_zero]
      linarith [hrx, hxs.trans_eq this]
    rw [lookup_eval segs Axis.v X _ hne]
    have hlo0v : (segs.getD 0 dfltSeg).pos Axis.v ≤ (segs.getD r dfltSeg).pos Axis.v :=
      hmonoV 0 r (Nat.zero_le r) hrn
    have hspec2 := lookupSearch_spec segs Axis.v ((segs.getD r dfltSeg).pos Axis.v)
      (n-1) 0 (n-1) (by omega) (by omega) hmonoV (by omega) hlo0v
    set r2 := lookupSearch segs Axis.v ((segs.getD r dfltSeg).pos Axis.v) 0 (n-1) with hr2
    obtain ⟨-, hr2hi, hr2v, hmax2⟩ := hspec2
    have hge : r ≤ r2 := hmax2 r (by omega) (le_refl _)
    have hr2eq : r2 = r := by omega
    rw [hr2eq]
    by_cases hVr : (segs.getD r dfltSeg).size Axis.v ≤ 0
    · rw [if_pos hVr, hxeq]
    · rw [if_neg hVr, sub_self, zero_div, zero_mul, add_zero, hxeq]
  · rw [if_neg hXr]
    push_neg at hXr
    have hVr : 0 < (segs.getD r dfltSeg).size Axis.v :=
      lt_of_lt_of_le hXr (hsz r hrn).2.2
    set v := (segs.getD r dfltSeg).pos Axis.v +
      (x - (segs.getD r dfltSeg).pos X) / (segs.getD r dfltSeg).size X *
        (segs.getD r dfltSeg).size Axis.v with hv
    have hv_lb : (segs.getD r dfltSeg).pos Axis.v ≤ v := by
      rw [hv]
      have h1 : 0 ≤ (x - (segs.getD r dfltSeg).pos X) / (segs.getD r dfltSeg).size X :=
        div_nonneg (by linarith) (le_of_lt hXr)
      nlinarith
    have hv_ub : r < n - 1 → v < (segs.getD (r+1) dfltSeg).pos Axis.v := by
      intro hlt
      have h1 := hup hlt
      have h2 := hchainX r (by omega)
      have h3 := hchainV r (by omega)
      have ht1 : (x - (segs.getD r dfltSeg).pos X) / (segs.getD r dfltSeg).size X < 1 := by
        rw [div_lt_one hXr]
        rw [h2] at h1
        linarith
      rw [hv, h3]
      nlinarith
    rw [lookup_eval segs Axis.v X v hne]
    have hlo0v : (segs.getD 0 dfltSeg).pos Axis.v ≤ v :=
      le_trans (hmonoV 0 r (Nat.zero_le r) hrn) hv_lb
    have hspec2 := lookupSearch_spec segs Axis.v v (n-1) 0 (n-1) (by omega) (by omega)
      hmonoV (by omega) hlo0v
    set r2 := lookupSearch segs Axis.v v 0 (n-1) with hr2
    obtain ⟨-, hr2hi, hr2v, hmax2⟩ := hspec2
    have hge : r ≤ r2 := hmax2 r (by omega) hv_lb
    have hr2eq : r2 = r := by
      rcases Nat.eq_or_lt_of_le (show r ≤ n - 1 by omega) with heq | hlt
      · omega
      · have hub := hv_ub (by omega)
        by_contra hne2
        have hgt : r + 1 ≤ r2 := by omega
        have := hmonoV (r+1) r2 hgt (by omega)
        linarith
    rw [hr2eq]
    have hVne : ¬ (segs.getD r dfltSeg).size Axis.v ≤ 0 := not_le.mpr hVr
    rw [if_neg hVne]
    have hszX : (segs.getD r dfltSeg).size X ≠ 0 := ne_of_gt hXr
    have hszV : (segs.getD r dfltSeg).size Axis.v ≠ 0 := ne_of_gt hVr
    rw [hv, add_sub_cancel_left, mul_div_cancel_right₀ _ hszV, div_mul_cancel₀ _ hszX]
    ring

theorem roundtrip_virtual_core (segs : List Segment) (X : Axis) (vT : ℚ) (v : ℚ)
    (hn : 1 ≤ segs.length)
    (hchainX : ∀ i, i + 1 < segs.length →
      (segs.getD (i+1) dfltSeg).pos X =
        (segs.getD i dfltSeg).pos X + (segs.getD i dfltSeg).size X)
    (hchainV : ∀ i, i + 1 < segs.length →
      (segs.getD (i+1) dfltSeg).pos Axis.v =
        (segs.getD i dfltSeg).pos Axis.v + (segs.getD i dfltSeg).size Axis.v)
    (hV0 : (segs.getD 0 dfltSeg).pos Axis.v = 0)
    (hVlast : (segs.getD (segs.length - 1) dfltSeg).pos Axis.v +
      (segs.getD (segs.length - 1) dfltSeg).size Axis.v = vT)
    (hsz : ∀ i, i < segs.length →
      0 ≤ (segs.getD i dfltSeg).size X ∧ 0 ≤ (segs.getD i dfltSeg).size Axis.v ∧
        (segs.getD i dfltSeg).size X ≤ (segs.getD i dfltSeg).size Axis.v)
    (hmidX : ∀ i, i + 1 < segs.length → 0 < (segs.getD i dfltSeg).size X)
    (hlast_cond : 0 < (segs.getD (segs.length - 1) dfltSeg).size X ∨
      (segs.getD (segs.length - 1) dfltSeg).size Axis.v ≤ 0)
    (hv0 : 0 ≤ v) (hvt : v ≤ vT) :
    lookup segs X Axis.v (lookup segs Axis.v X v) = v := by
  have hne : segs.length ≠ 0 := by omega
  have hmonoX : ∀ i j, i ≤ j → j < segs.length →
      (segs.getD i dfltSeg).pos X ≤ (segs.getD j dfltSeg).pos X :=
    chain_mono _ _ _ hchainX (fun i hi => (hsz i (by omega)).1)
  have hmonoV : ∀ i j, i ≤ j → j < segs.length →
      (segs.getD i dfltSeg).pos Axis.v ≤ (segs.getD j dfltSeg).pos Axis.v :=
    chain_mono _ _ _ hchainV (fun i hi => (hsz i (by omega)).2.1)
  set n := segs.length with hnn
  have hlo0 : (segs.getD 0 dfltSeg).pos Axis.v ≤ v := by rw [hV0]; exact hv0
  have hspec := lookupSearch_spec segs Axis.v v (n-1) 0 (n-1) (by omega) (by omega)
    hmonoV (by omega) hlo0
  set r := lookupSearch segs Axis.v v 0 (n-1) with hr
  obtain ⟨-, hrhi, hrv, hmax⟩ := hspec
  have hrn : r < n := by omega
  have hup : r < n - 1 → v < (segs.getD (r+1) dfltSeg).pos Axis.v := by
    intro hlt
    by_contra hc
    push_neg at hc
    have := hmax (r+1) (by omega) hc
    omega
  rw [lookup_eval segs Axis.v X v hne, ← hr]
  by_cases hVr : (segs.getD r dfltSeg).size Axis.v ≤ 0
  · rw [if_pos hVr]
    have hrlast : r = n - 1 := by
      by_contra hrne
      have hlt : r < n - 1 := by omega
      have h1 := hmidX r (by omega)
      have h2 := (hsz r hrn).2.2
      linarith
    have hVz : (segs.getD r dfltSeg).size Axis.v = 0 :=
      le_antisymm hVr (hsz r hrn).2.1
    have hXz : (segs.getD r dfltSeg).size X = 0 :=
      le_antisymm (by linarith [(hsz r hrn).2.2]) (hsz r hrn).1
    have hveq : v = (segs.getD r dfltSeg).pos Axis.v := by
      have : vT = (segs.getD r dfltSeg).pos Axis.v := by
        rw [← hVlast, ← hrlast, hVz, add_zero]
      linarith [hrv, hvt.trans_eq this]
    rw [lookup_eval segs X Axis.v _ hne]
    have hlo0x : (segs.getD 0 dfltSeg).pos X ≤ (segs.getD r dfltSeg).pos X :=
      hmonoX 0 r (Nat.zero_le r) hrn
    have hspec2 := lookupSearch_spec segs X ((segs.getD r dfltSeg).pos X)
      (n-1) 0 (n-1) (by omega) (by omega) hmonoX (by omega) hlo0x
    set r2 := lookupSearch segs X ((segs.getD r dfltSeg).pos X) 0 (n-1) with hr2
    obtain ⟨-, hr2hi, hr2x, hmax2⟩ := hspec2
    have hge : r ≤ r2 := hmax2 r (by omega) (le_refl _)
    have hr2eq : r2 = r := by omega
    rw [hr2eq, if_pos (le_of_eq hXz), hveq]
  · rw [if_neg hVr]
    push_neg at hVr
    have hXr : 0 < (segs.getD r dfltSeg).size X := by
      rcases Nat.eq_or_lt_of_le (show r ≤ n - 1 by omega) with heq | hlt
      · rcases hlast_cond with hc | hc
        · rw [heq]; exact hc
        · rw [← heq] at hc; linarith
      · exact hmidX r (by omega)
    set a := (segs.getD r dfltSeg).pos X +
      (v - (segs.getD r dfltSeg).pos Axis.v) / (segs.getD r dfltSeg).size Axis.v *
        (segs.getD r dfltSeg).size X with ha
    have ha_lb : (segs.getD r dfltSeg).pos X ≤ a := by
      rw [ha]
      have h1 : 0 ≤ (v - (segs.getD r dfltSeg).pos Axis.v) / (segs.getD r dfltSeg).size Axis.v :=
        div_nonneg (by linarith) (le_of_lt hVr)
      nlinarith
    have ha_ub : r < n - 1 → a < (segs.getD (r+1) dfltSeg).pos X := by
      intro hlt
      have h1 := hup hlt
      have h2 := hchainV r (by omega)
      have h3 := hchainX r (by omega)
      have ht1 : (v - (segs.getD r dfltSeg).pos Axis.v) / (segs.getD r dfltSeg).size Axis.v < 1 := by
        rw [div_lt_one hVr]
        rw [h2] at h1
        linarith
      rw [ha, h3]
      nlinarith
    rw [lookup_eval segs X Axis.v a hne]
    have hlo0x : (segs.getD 0 dfltSeg).pos X ≤ a :=
      le_trans (hmonoX 0 r (Nat.zero_le r) hrn) ha_lb
    have hspec2 := lookupSearch_spec segs X a (n-1) 0 (n-1) (by omega) (by omega)
      hmonoX (by omega) hlo0x
    set r2 := lookupSearch segs X a 0 (n-1) with hr2
    obtain ⟨-, hr2hi, hr2x, hmax2⟩ := hspec2
    have hge : r ≤ r2 := hmax2 r (by omega) ha_lb
    have hr2eq : r2 = r := by
      rcases Nat.eq_or_lt_of_le (show r ≤ n - 1 by omega) with heq | hlt
      · omega
      · have hub := ha_ub (by omega)
        by_contra hne2
        have hgt : r + 1 ≤ r2 := by omega
        have := hmonoX (r+1) r2 hgt (by omega)
        linarith
    rw [hr2eq]
    have hXne : ¬ (segs.getD r dfltSeg).size X ≤ 0 := not_le.mpr hXr
    rw [if_neg hXne]
    have hszX : (segs.getD r dfltSeg).size X ≠ 0 := ne_of_gt hXr
    have hszV : (segs.getD r dfltSeg).size Axis.v ≠ 0 := ne_of_gt hVr
    rw [ha, add_sub_cancel_left, mul_div_cancel_right₀ _ hszX, div_mul_cancel₀ _ hszV]
    ring

theorem lookup_v_zero_core (segs : List Segment) (X : Axis)
    (hn : 1 ≤ segs.length)
    (hchainV : ∀ i, i + 1 < segs.length →
      (segs.getD (i+1) dfltSeg).pos Axis.v =
        (segs.getD i dfltSeg).pos Axis.v + (segs.getD i dfltSeg).size Axis.v)
    (hV0 : (segs.getD 0 dfltSeg).pos Axis.v = 0)
    (hX0 : (segs.getD 0 dfltSeg).pos X = 0)
    (hszV : ∀ i, i < segs.length → 0 ≤ (segs.getD i dfltSeg).size Axis.v)
    (hmidV : ∀ i, i + 1 < segs.length → 0 < (segs.getD i dfltSeg).size Axis.v) :
    lookup segs Axis.v X 0 = 0 := by
  have hne : segs.length ≠ 0 := by omega
  have hmonoV : ∀ i j, i ≤ j → j < segs.length →
      (segs.getD i dfltSeg).pos Axis.v ≤ (segs.getD j dfltSeg).pos Axis.v :=
    chain_mono _ _ _ hchainV (fun i hi => hszV i (by omega))
  set n := segs.length with hnn
  have hlo0 : (segs.getD 0 dfltSeg).pos Axis.v ≤ 0 := le_of_eq hV0
  have hspec := lookupSearch_spec segs Axis.v 0 (n-1) 0 (n-1) (by omega) (by omega)
    hmonoV (by omega) hlo0
  set r := lookupSearch segs Axis.v 0 0 (n-1) with hr
  obtain ⟨-, hrhi, hrv, -⟩ := hspec
  have hr0 : r = 0 := by
    by_contra hrne
    have hr1 : 1 ≤ r := by omega
    have h1 : (segs.getD 1 dfltSeg).pos Axis.v ≤ (segs.getD r dfltSeg).pos Axis.v :=
      hmonoV 1 r hr1 (by omega)
    have h2 := hchainV 0 (by omega)
    have h3 := hmidV 0 (by omega)
    rw [h2, hV0] at h1
    linarith
  rw [lookup_eval segs Axis.v X 0 hne, ← hr, hr0]
  by_cases hVz : (segs.getD 0 dfltSeg).size Axis.v ≤ 0
  · rw [if_pos hVz, hX0]
  · rw [if_neg hVz, hV0, hX0, sub_zero, zero_div, zero_mul, add_zero]

theorem lookup_v_total_core (segs : List Segment) (X : Axis) (vT sX : ℚ)
    (hn : 1 ≤ segs.length)
    (hchainV : ∀ i, i + 1 < segs.length →
      (segs.getD (i+1) dfltSeg).pos Axis.v =
        (segs.getD i dfltSeg).pos Axis.v + (segs.getD i dfltSeg).size Axis.v)
    (hVlast : (segs.getD (segs.length - 1) dfltSeg).pos Axis.v +
      (segs.getD (segs.length - 1) dfltSeg).size Axis.v = vT)
    (hXlast : (segs.getD (segs.length - 1) dfltSeg).pos X +
      (segs.getD (segs.length - 1) dfltSeg).size X = sX)
    (hsz : ∀ i, i < segs.length →
      0 ≤ (segs.getD i dfltSeg).size X ∧ 0 ≤ (segs.getD i dfltSeg).size Axis.v ∧
        (segs.getD i dfltSeg).size X ≤ (segs.getD i dfltSeg).size Axis.v) :
    lookup segs Axis.v X vT = sX := by
  have hne : segs.length ≠ 0 := by omega
  have hmonoV : ∀ i j, i ≤ j → j < segs.length →
      (segs.getD i dfltSeg).pos Axis.v ≤ (segs.getD j dfltSeg).pos Axis.v :=
    chain_mono _ _ _ hchainV (fun i hi => (hsz i (by omega)).2.1)
  set n := segs.length with hnn
  have hlastle : (segs.getD (n-1) dfltSeg).pos Axis.v ≤ vT := by
    have := (hsz (n-1) (by omega)).2.1
    linarith
  have hlo0 : (segs.getD 0 dfltSeg).pos Axis.v ≤ vT :=
    le_trans (hmonoV 0 (n-1) (Nat.zero_le _) (by omega)) hlastle
  have hspec := lookupSearch_spec segs Axis.v vT (n-1) 0 (n-1) (by omega) (by omega)
    hmonoV (by omega) hlo0
  set r := lookupSearch segs Axis.v vT 0 (n-1) with hr
  obtain ⟨-, hrhi, hrv, hmax⟩ := hspec
  have hreq : r = n - 1 := by
    have := hmax (n-1) (le_refl _) hlastle
    omega
  rw [lookup_eval segs Axis.v X vT hne, ← hr, hreq]
  by_cases hVz : (segs.getD (n-1) dfltSeg).size Axis.v ≤ 0
  · rw [if_pos hVz]
    have hsz1 := hsz (n-1) (by omega)
    have hVzz : (segs.getD (n-1) dfltSeg).size Axis.v = 0 := le_antisymm hVz hsz1.2.1
    have hXzz : (segs.getD (n-1) dfltSeg).size X = 0 :=
      le_antisymm (by linarith [hsz1.2.2]) hsz1.1
    rw [← hXlast, hXzz, add_zero]
  · rw [if_neg hVz]
    have hszV : (segs.getD (n-1) dfltSeg).size Axis.v ≠ 0 := fun h => hVz (le_of_eq h)
    have hsub : vT - (segs.getD (n-1) dfltSeg).pos Axis.v =
        (segs.getD (n-1) dfltSeg).size Axis.v := by linarith
    rw [hsub, div_self hszV, one_mul, hXlast]

theorem lookup_v_nonneg_core (segs : List Segment) (X : Axis) (value : ℚ)
    (hn : 1 ≤ segs.length)
    (hchainV : ∀ i, i + 1 < segs.length →
      (segs.getD (i+1) dfltSeg).pos Axis.v =
        (segs.getD i dfltSeg).pos Axis.v + (segs.getD i dfltSeg).size Axis.v)
    (hV0 : (segs.getD 0 dfltSeg).pos Axis.v = 0)
    (hposX : ∀ i, i < segs.length → 0 ≤ (segs.getD i dfltSeg).pos X)
    (hszX : ∀ i, i < segs.length → 0 ≤ (segs.getD i dfltSeg).size X)
    (hszV : ∀ i, i < segs.length → 0 ≤ (segs.getD i dfltSeg).size Axis.v)
    (hval : 0 ≤ value) :
    0 ≤ lookup segs Axis.v X value := by
  have hne : segs.length ≠ 0 := by omega
  have hmonoV : ∀ i j, i ≤ j → j < segs.length →
      (segs.getD i dfltSeg).pos Axis.v ≤ (segs.getD j dfltSeg).pos Axis.v :=
    chain_mono _ _ _ hchainV (fun i hi => hszV i (by omega))
  set n := segs.length with hnn
  have hlo0 : (segs.getD 0 dfltSeg).pos Axis.v ≤ value := by rw [hV0]; exact hval
  have hspec := lookupSearch_spec segs Axis.v value (n-1) 0 (n-1) (by omega) (by omega)
    hmonoV (by omega) hlo0
  set r := lookupSearch segs Axis.v value 0 (n-1) with hr
  obtain ⟨-, hrhi, hrv, -⟩ := hspec
  have hrn : r < n := by omega
  rw [lookup_eval segs Axis.v X value hne, ← hr]
  by_cases hVz : (segs.getD r dfltSeg).size Axis.v ≤ 0
  · rw [if_pos hVz]
    exact hposX r hrn
  · rw [if_neg hVz]
    push_neg at hVz
    have h1 : 0 ≤ (value - (segs.getD r dfltSeg).pos Axis.v) /
        (segs.getD r dfltSeg).size Axis.v :=
      div_nonneg (by linarith) (le_of_lt hVz)
    have h2 := hszX r hrn
    have h3 := hposX r hrn
    nlinarith

theorem buildMap_vTotal_sum (anchors : List Anchor) (eA eB : ℚ) :
    (buildMap anchors eA eB).vTotal =
      ((buildMap anchors eA eB).segments.map Segment.vS).sum := by
  have h := buildSegs_sum (buildPts anchors (max 0 eA) (max 0 eB)) 0
  have h1 : (buildMap anchors eA eB).vTotal =
      (buildSegs 0 (buildPts anchors (max 0 eA) (max 0 eB))).2 := rfl
  have h2 : (buildMap anchors eA eB).segments =
      (buildSegs 0 (buildPts anchors (max 0 eA) (max 0 eB))).1 := rfl
  rw [h1, h2, h, zero_add]

theorem buildMap_vTotal_nonneg (anchors : List Anchor) (eA eB : ℚ) :
    0 ≤ (buildMap anchors eA eB).vTotal := by
  have hn := buildMap_length_pos anchors eA eB
  have hlast := (buildMap_last anchors eA eB).2.2
  have hpos := (buildMap_pos_nonneg anchors eA eB
    ((buildMap anchors eA eB).segments.length - 1) (by omega)).2.2
  have hsz := (buildMap_sizes_nonneg anchors eA eB
    ((buildMap anchors eA eB).segments.length - 1) (by omega)).2.2.1
  linarith

/-- C1: for every anchor list and every pair of extents (clamped to ≥ 0),
`buildMap` returns at least one segment; consecutive segments are
contiguous and non-overlapping on all three axes (segment `i+1`'s start
on each axis equals segment `i`'s start plus segment `i`'s length on
that axis); the first segment starts at `(aPx = 0, bPx = 0, vPx = 0)`;
the last segment's end equals `(sMaxA, sMaxB, vTotal)`; every segment
has `vS = max aS bS`; and `vTotal` equals the sum of every segment's
`vS`. -/
theorem C1_buildMap_invariants (anchors : List Anchor) (eA eB : ℚ) :
    1 ≤ (buildMap anchors eA eB).segments.length ∧
    (∀ i, i + 1 < (buildMap anchors eA eB).segments.length →
      ((buildMap anchors eA eB).segments.getD (i+1) dfltSeg).aPx =
        ((buildMap anchors eA eB).segments.getD i dfltSeg).aPx +
          ((buildMap anchors eA eB).segments.getD i dfltSeg).aS ∧
      ((buildMap anchors eA eB).segments.getD (i+1) dfltSeg).bPx =
        ((buildMap anchors eA eB).segments.getD i dfltSeg).bPx +
          ((buildMap anchors eA eB).segments.getD i dfltSeg).bS ∧
      ((buildMap anchors eA eB).segments.getD (i+1) dfltSeg).vPx =
        ((buildMap anchors eA eB).segments.getD i dfltSeg).vPx +
          ((buildMap anchors eA eB).segments.getD i dfltSeg).vS) ∧
    (((buildMap anchors eA eB).segments.getD 0 dfltSeg).aPx = 0 ∧
     ((buildMap anchors eA eB).segments.getD 0 dfltSeg).bPx = 0 ∧
     ((buildMap anchors eA eB).segments.getD 0 dfltSeg).vPx = 0) ∧
    (((buildMap anchors eA eB).segments.getD
        ((buildMap anchors eA eB).segments.length - 1) dfltSeg).aPx +
      ((buildMap anchors eA eB).segments.getD
        ((buildMap anchors eA eB).segments.length - 1) dfltSeg).aS = max 0 eA ∧
     ((buildMap anchors eA eB).segments.getD
        ((buildMap anchors eA eB).segments.length - 1) dfltSeg).bPx +
      ((buildMap anchors eA eB).segments.getD
        ((buildMap anchors eA eB).segments.length - 1) dfltSeg).bS = max 0 eB ∧
     ((buildMap anchors eA eB).segments.getD
        ((buildMap anchors eA eB).segments.length - 1) dfltSeg).vPx +
      ((buildMap anchors eA eB).segments.getD
        ((buildMap anchors eA eB).segments.length - 1) dfltSeg).vS =
        (buildMap anchors eA eB).vTotal) ∧
    (∀ i, i < (buildMap anchors eA eB).segments.length →
      ((buildMap anchors eA eB).segments.getD i dfltSeg).vS =
        max (((buildMap anchors eA eB).segments.getD i dfltSeg).aS)
          (((buildMap anchors eA eB).segments.getD i dfltSeg).bS)) ∧
    (buildMap anchors eA eB).vTotal =
      ((buildMap anchors eA eB).segments.map Segment.vS).sum :=
  ⟨buildMap_length_pos anchors eA eB, buildMap_chain anchors eA eB,
   buildMap_first anchors eA eB, buildMap_last anchors eA eB,
   buildMap_vS anchors eA eB, buildMap_vTotal_sum anchors eA eB⟩

/-- Witness for C1 at the spec's basic two-anchor scenario. -/
theorem C1_buildMap_invariants_witness :
    1 ≤ (buildMap [⟨200, 600, false⟩] 1000 1000).segments.length ∧
    ((buildMap [⟨200, 600, false⟩] 1000 1000).segments.getD 1 dfltSeg).aPx =
      ((buildMap [⟨200, 600, false⟩] 1000 1000).segments.getD 0 dfltSeg).aPx +
        ((buildMap [⟨200, 600, false⟩] 1000 1000).segments.getD 0 dfltSeg).aS ∧
    ((buildMap [⟨200, 600, false⟩] 1000 1000).segments.getD 1 dfltSeg).vS =
      max (((buildMap [⟨200, 600, false⟩] 1000 1000).segments.getD 1 dfltSeg).aS)
        (((buildMap [⟨200, 600, false⟩] 1000 1000).segments.getD 1 dfltSeg).bS) := by
  have hlen : (buildMap [⟨200, 600, false⟩] 1000 1000).segments.length = 2 := by
    norm_num [buildMap, buildPts, sanitizeSort, sanitize, jsRound, acceptLoop, buildSegs]
  refine ⟨(C1_buildMap_invariants [⟨200, 600, false⟩] 1000 1000).1,
    ((C1_buildMap_invariants [⟨200, 600, false⟩] 1000 1000).2.1 0 (by rw [hlen]; norm_num)).1,
    (C1_buildMap_invariants [⟨200, 600, false⟩] 1000 1000).2.2.2.2.1 1 (by rw [hlen]; norm_num)⟩

/-- C3: for every map produced by `buildMap` and all non-negative
extents, including degenerate cases (zero anchors or zero extents):
`lookup(segments, vPx, aPx, 0) = 0`, `lookup(segments, vPx, bPx, 0) = 0`,
`lookup(segments, vPx, aPx, vTotal) = extentA`, and
`lookup(segments, vPx, bPx, vTotal) = extentB`. -/
theorem C3_lookup_boundary (anchors : List Anchor) (eA eB : ℚ)
    (hA : 0 ≤ eA) (hB : 0 ≤ eB) :
    lookup (buildMap anchors eA eB).segments Axis.v Axis.a 0 = 0 ∧
    lookup (buildMap anchors eA eB).segments Axis.v Axis.b 0 = 0 ∧
    lookup (buildMap anchors eA eB).segments Axis.v Axis.a
      (buildMap anchors eA eB).vTotal = eA ∧
    lookup (buildMap anchors eA eB).segments Axis.v Axis.b
      (buildMap anchors eA eB).vTotal = eB := by
  have hn := buildMap_length_pos anchors eA eB
  have hchainV : ∀ i, i + 1 < (buildMap anchors eA eB).segments.length →
      ((buildMap anchors eA eB).segments.getD (i+1) dfltSeg).pos Axis.v =
        ((buildMap anchors eA eB).segments.getD i dfltSeg).pos Axis.v +
          ((buildMap anchors eA eB).segments.getD i dfltSeg).size Axis.v :=
    fun i hi => (buildMap_chain anchors eA eB i hi).2.2
  have hV0 : ((buildMap anchors eA eB).segments.getD 0 dfltSeg).pos Axis.v = 0 :=
    (buildMap_first anchors eA eB).2.2
  have hszV : ∀ i, i < (buildMap anchors eA eB).segments.length →
      0 ≤ ((buildMap anchors eA eB).segments.getD i dfltSeg).size Axis.v :=
    fun i hi => (buildMap_sizes_nonneg anchors eA eB i hi).2.2.1
  have hszA : ∀ i, i < (buildMap anchors eA eB).segments.length →
      0 ≤ ((buildMap anchors eA eB).segments.getD i dfltSeg).size Axis.a ∧
      0 ≤ ((buildMap anchors eA eB).segments.getD i dfltSeg).size Axis.v ∧
      ((buildMap anchors eA eB).segments.getD i dfltSeg).size Axis.a ≤
        ((buildMap anchors eA eB).segments.getD i dfltSeg).size Axis.v :=
    fun i hi => ⟨(buildMap_sizes_nonneg anchors eA eB i hi).1,
      (buildMap_sizes_nonneg anchors eA eB i hi).2.2.1,
      (buildMap_sizes_nonneg anchors eA eB i hi).2.2.2.1⟩
  have hszB : ∀ i, i < (buildMap anchors eA eB).segments.length →
      0 ≤ ((buildMap anchors eA eB).segments.getD i dfltSeg).size Axis.b ∧
      0 ≤ ((buildMap anchors eA eB).segments.getD i dfltSeg).size Axis.v ∧
      ((buildMap anchors eA eB).segments.getD i dfltSeg).size Axis.b ≤
        ((buildMap anchors eA eB).segments.getD i dfltSeg).size Axis.v :=
    fun i hi => ⟨(buildMap_sizes_nonneg anchors eA eB i hi).2.1,
      (buildMap_sizes_nonneg anchors eA eB i hi).2.2.1,
      (buildMap_sizes_nonneg anchors eA eB i hi).2.2.2.2⟩
  refine ⟨?_, ?_, ?_, ?_⟩
  · exact lookup_v_zero_core _ Axis.a hn hchainV hV0
      (buildMap_first anchors eA eB).1 hszV (buildMap_vS_pos_mid anchors eA eB)
  · exact lookup_v_zero_core _ Axis.b hn hchainV hV0
      (buildMap_first anchors eA eB).2.1 hszV (buildMap_vS_pos_mid anchors eA eB)
  · have h := lookup_v_total_core _ Axis.a (buildMap anchors eA eB).vTotal (max 0 eA)
      hn hchainV (buildMap_last anchors eA eB).2.2 (buildMap_last anchors eA eB).1 hszA
    rw [max_eq_right hA] at h
    exact h
  · have h := lookup_v_total_core _ Axis.b (buildMap anchors eA eB).vTotal (max 0 eB)
      hn hchainV (buildMap_last anchors eA eB).2.2 (buildMap_last anchors eA eB).2.1 hszB
    rw [max_eq_right hB] at h
    exact h

/-- Witness for C3 at empty anchors and extents `(1000, 2000)`. -/
theorem C3_lookup_boundary_witness :
    lookup (buildMap [] 1000 2000).segments Axis.v Axis.a 0 = 0 ∧
    lookup (buildMap [] 1000 2000).segments Axis.v Axis.b 0 = 0 ∧
    lookup (buildMap [] 1000 2000).segments Axis.v Axis.a
      (buildMap [] 1000 2000).vTotal = 1000 ∧
    lookup (buildMap [] 1000 2000).segments Axis.v Axis.b
      (buildMap [] 1000 2000).vTotal = 2000 :=
  C3_lookup_boundary [] 1000 2000 (by norm_num) (by norm_num)

/-- C2 counterexample: for the map built from the single anchor
`(aPx = 100, bPx = 0)` with extents `(100, 300)`, the virtual position
`250` lies in `[0, vTotal] = [0, 400]`, but converting it to the A axis
and back yields `100`, not `250` — far beyond any rounding tolerance.
(The final segment has `aS = 0` but `vS = 300`, so every virtual
position inside it collapses to the segment's start.) -/
theorem C2_roundtrip_counterexample :
    (buildMap [⟨100, 0, false⟩] 100 300).vTotal = 400 ∧
    lookup (buildMap [⟨100, 0, false⟩] 100 300).segments Axis.a Axis.v
      (lookup (buildMap [⟨100, 0, false⟩] 100 300).segments Axis.v Axis.a 250) = 100 ∧
    ((100 : ℚ)) ≠ 250 := by
  have hseg : (buildMap [⟨100, 0, false⟩] 100 300).segments =
      [(⟨0, 0, 0, 100, 0, 100, false⟩ : Segment),
       (⟨100, 0, 100, 0, 300, 300, false⟩ : Segment)] := by
    norm_num [buildMap, buildPts, sanitizeSort, sanitize, jsRound, acceptLoop, buildSegs]
  refine ⟨?_, ?_, by norm_num⟩
  · norm_num [buildMap, buildPts, sanitizeSort, sanitize, jsRound, acceptLoop, buildSegs]
  · rw [hseg]
    norm_num [lookup, lookupSearch_step, lookupSearch_stop, Segment.pos, Segment.size, dfltSeg]

/-- C2 (amended): for every map produced by `buildMap`, converting any
`x ∈ [0, extentA]` from the A axis to the virtual axis and back recovers
`x` exactly, and symmetrically for the B axis; converting any
`v ∈ [0, vTotal]` from the virtual axis to the A axis and back recovers
`v` exactly provided the final segment is not degenerate on the A axis
while having positive virtual length (`aS = 0 < vS`), in which case such
`v` collapse to that segment's start. -/
theorem C2_roundtrip_amended (anchors : List Anchor) (eA eB : ℚ) (x y v : ℚ) :
    (0 ≤ x → x ≤ max 0 eA →
      lookup (buildMap anchors eA eB).segments Axis.v Axis.a
        (lookup (buildMap anchors eA eB).segments Axis.a Axis.v x) = x) ∧
    (0 ≤ y → y ≤ max 0 eB →
      lookup (buildMap anchors eA eB).segments Axis.v Axis.b
        (lookup (buildMap anchors eA eB).segments Axis.b Axis.v y) = y) ∧
    (0 ≤ v → v ≤ (buildMap anchors eA eB).vTotal →
      (0 < ((buildMap anchors eA eB).segments.getD
          ((buildMap anchors eA eB).segments.length - 1) dfltSeg).aS ∨
        ((buildMap anchors eA eB).segments.getD
          ((buildMap anchors eA eB).segments.length - 1) dfltSeg).vS ≤ 0) →
      lookup (buildMap anchors eA eB).segments Axis.a Axis.v
        (lookup (buildMap anchors eA eB).segments Axis.v Axis.a v) = v) := by
  have hn := buildMap_length_pos anchors eA eB
  have hchainA : ∀ i, i + 1 < (buildMap anchors eA eB).segments.length →
      ((buildMap anchors eA eB).segments.getD (i+1) dfltSeg).pos Axis.a =
        ((buildMap anchors eA eB).segments.getD i dfltSeg).pos Axis.a +
          ((buildMap anchors eA eB).segments.getD i dfltSeg).size Axis.a :=
    fun i hi => (buildMap_chain anchors eA eB i hi).1
  have hchainB : ∀ i, i + 1 < (buildMap anchors eA eB).segments.length →
      ((buildMap anchors eA eB).segments.getD (i+1) dfltSeg).pos Axis.b =
        ((buildMap anchors eA eB).segments.getD i dfltSeg).pos Axis.b +
          ((buildMap anchors eA eB).segments.getD i dfltSeg).size Axis.b :=
    fun i hi => (buildMap_chain anchors eA eB i hi).2.1
  have hchainV : ∀ i, i + 1 < (buildMap anchors eA eB).segments.length →
      ((buildMap anchors eA eB).segments.getD (i+1) dfltSeg).pos Axis.v =
        ((buildMap anchors eA eB).segments.getD i dfltSeg).pos Axis.v +
          ((buildMap anchors eA eB).segments.getD i dfltSeg).size Axis.v :=
    fun i hi => (buildMap_chain anchors eA eB i hi).2.2
  have hszA : ∀ i, i < (buildMap anchors eA eB).segments.length →
      0 ≤ ((buildMap anchors eA eB).segments.getD i dfltSeg).size Axis.a ∧
      0 ≤ ((buildMap anchors eA eB).segments.getD i dfltSeg).size Axis.v ∧
      ((buildMap anchors eA eB).segments.getD i dfltSeg).size Axis.a ≤
        ((buildMap anchors eA eB).segments.getD i dfltSeg).size Axis.v :=
    fun i hi => ⟨(buildMap_sizes_nonneg anchors eA eB i hi).1,
      (buildMap_sizes_nonneg anchors eA eB i hi).2.2.1,
      (buildMap_sizes_nonneg anchors eA eB i hi).2.2.2.1⟩
  have hszB : ∀ i, i < (buildMap anchors eA eB).segments.length →
      0 ≤ ((buildMap anchors eA eB).segments.getD i dfltSeg).size Axis.b ∧
      0 ≤ ((buildMap anchors eA eB).segments.getD i dfltSeg).size Axis.v ∧
      ((buildMap anchors eA eB).segments.getD i dfltSeg).size Axis.b ≤
        ((buildMap anchors eA eB).segments.getD i dfltSeg).size Axis.v :=
    fun i hi => ⟨(buildMap_sizes_nonneg anchors eA eB i hi).2.1,
      (buildMap_sizes_nonneg anchors eA eB i hi).2.2.1,
      (buildMap_sizes_nonneg anchors eA eB i hi).2.2.2.2⟩
  refine ⟨?_, ?_, ?_⟩
  · intro hx0 hxs
    exact roundtrip_pane_core _ Axis.a (max 0 eA) x hn hchainA hchainV
      (buildMap_first anchors eA eB).1 (buildMap_last anchors eA eB).1 hszA hx0 hxs
  · intro hy0 hys
    exact roundtrip_pane_core _ Axis.b (max 0 eB) y hn hchainB hchainV
      (buildMap_first anchors eA eB).2.1 (buildMap_last anchors eA eB).2.1 hszB hy0 hys
  · intro hv0 hvt hlast
    exact roundtrip_virtual_core _ Axis.a (buildMap anchors eA eB).vTotal v hn
      hchainA hchainV (buildMap_first anchors eA eB).2.2
      (buildMap_last anchors eA eB).2.2 hszA (buildMap_aS_pos_mid anchors eA eB)
      hlast hv0 hvt

/-- Witness for C2 (amended) at the spec's basic two-anchor scenario. -/
theorem C2_roundtrip_amended_witness :
    lookup (buildMap [⟨200, 600, false⟩] 1000 1000).segments Axis.v Axis.a
      (lookup (buildMap [⟨200, 600, false⟩] 1000 1000).segments Axis.a Axis.v 300) = 300 ∧
    lookup (buildMap [⟨200, 600, false⟩] 1000 1000).segments Axis.v Axis.b
      (lookup (buildMap [⟨200, 600, false⟩] 1000 1000).segments Axis.b Axis.v 700) = 700 ∧
    lookup (buildMap [⟨200, 600, false⟩] 1000 1000).segments Axis.a Axis.v
      (lookup (buildMap [⟨200, 600, false⟩] 1000 1000).segments Axis.v Axis.a 900) = 900 := by
  have hseg : (buildMap [⟨200, 600, false⟩] 1000 1000).segments =
      [(⟨0, 0, 0, 200, 600, 600, false⟩ : Segment),
       (⟨200, 600, 600, 800, 400, 800, false⟩ : Segment)] := by
    norm_num [buildMap, buildPts, sanitizeSort, sanitize, jsRound, acceptLoop, buildSegs]
  have hvt : (buildMap [⟨200, 600, false⟩] 1000 1000).vTotal = 1400 := by
    norm_num [buildMap, buildPts, sanitizeSort, sanitize, jsRound, acceptLoop, buildSegs]
  have hmax : (max 0 (1000:ℚ)) = 1000 := by norm_num
  refine ⟨(C2_roundtrip_amended [⟨200, 600, false⟩] 1000 1000 300 700 900).1
      (by norm_num) (by rw [hmax]; norm_num),
    (C2_roundtrip_amended [⟨200, 600, false⟩] 1000 1000 300 700 900).2.1
      (by norm_num) (by rw [hmax]; norm_num),
    (C2_roundtrip_amended [⟨200, 600, false⟩] 1000 1000 300 700 900).2.2
      (by norm_num) (by rw [hvt]; norm_num) ?_⟩
  left
  rw [hseg]
  norm_num [dfltSeg]

/-- C8 counterexample: on the single-segment map of `buildMap([], 100, 100)`,
a value below the first segment's start on the source axis does NOT
return the first segment's start on the target axis: the code
extrapolates linearly below it (`lookup(aPx → vPx, -50) = -50`, while the
first segment's start on the target axis is `0`). -/
theorem C8_lookup_counterexample :
    lookup (buildMap [] 100 100).segments Axis.a Axis.v (-50) = -50 ∧
    ((buildMap [] 100 100).segments.getD 0 dfltSeg).pos Axis.v = 0 ∧
    ((-50 : ℚ)) ≠ 0 := by
  have hseg : (buildMap [] 100 100).segments =
      [(⟨0, 0, 0, 100, 100, 100, false⟩ : Segment)] := by
    norm_num [buildMap, buildPts, sanitizeSort, sanitize, jsRound, acceptLoop, buildSegs]
  refine ⟨?_, ?_, by norm_num⟩
  · rw [hseg]
    norm_num [lookup, lookupSearch_stop, Segment.pos, Segment.size, dfltSeg]
  · rw [hseg]
    norm_num [Segment.pos]

/-- C8 (amended): for every non-empty segment list whose starts on the
source axis are nondecreasing (as in every built map), `lookup` lands on
the rightmost segment whose start on the source axis is ≤ `value` when
one exists; for a value below the first segment's start it lands on the
first segment; for a value at or beyond the last segment's start it
lands on the last segment; and in every case the result is the landing
segment's start on the target axis when its source-axis length is ≤ 0,
and otherwise pure linear interpolation/extrapolation with that
segment's slope — never clamped. -/
theorem C8_lookup_selection (segs : List Segment) (fromAx toAx : Axis)
    (value : ℚ) (R : ℕ)
    (hn : 1 ≤ segs.length)
    (hmono : ∀ i j, i ≤ j → j < segs.length →
      (segs.getD i dfltSeg).pos fromAx ≤ (segs.getD j dfltSeg).pos fromAx)
    (hR : R = lookupSearch segs fromAx value 0 (segs.length - 1)) :
    ((segs.getD 0 dfltSeg).pos fromAx ≤ value →
      (segs.getD R dfltSeg).pos fromAx ≤ value ∧
      ∀ j, j < segs.length → (segs.getD j dfltSeg).pos fromAx ≤ value → j ≤ R) ∧
    (value < (segs.getD 0 dfltSeg).pos fromAx → R = 0) ∧
    ((segs.getD (segs.length - 1) dfltSeg).pos fromAx ≤ value →
      R = segs.length - 1) ∧
    lookup segs fromAx toAx value =
      (if (segs.getD R dfltSeg).size fromAx ≤ 0 then (segs.getD R dfltSeg).pos toAx
       else (segs.getD R dfltSeg).pos toAx +
         (value - (segs.getD R dfltSeg).pos fromAx) /
           (segs.getD R dfltSeg).size fromAx * (segs.getD R dfltSeg).size toAx) := by
  have hne : segs.length ≠ 0 := by omega
  refine ⟨?_, ?_, ?_, ?_⟩
  · intro hlo
    have hspec := lookupSearch_spec segs fromAx value (segs.length - 1) 0
      (segs.length - 1) (by omega) (by omega) hmono (by omega) hlo
    rw [← hR] at hspec
    exact ⟨hspec.2.2.1, fun j hj hjv => hspec.2.2.2 j (by omega) hjv⟩
  · intro hlo
    rw [hR]
    exact lookupSearch_all_above segs fromAx value (segs.length - 1) 0
      (segs.length - 1) (by omega) (by omega) hmono (by omega) hlo
  · intro hlast
    have hlo : (segs.getD 0 dfltSeg).pos fromAx ≤ value :=
      le_trans (hmono 0 (segs.length - 1) (Nat.zero_le _) (by omega)) hlast
    have hspec := lookupSearch_spec segs fromAx value (segs.length - 1) 0
      (segs.length - 1) (by omega) (by omega) hmono (by omega) hlo
    rw [← hR] at hspec
    have := hspec.2.2.2 (segs.length - 1) (le_refl _) hlast
    omega
  · rw [lookup_eval segs fromAx toAx value hne, ← hR]

/-- Witness for C8 (amended) on the spec's basic two-anchor map, with
`value = 1500` beyond the last segment's start on the A axis. -/
theorem C8_lookup_selection_witness :
    lookupSearch (buildMap [⟨200, 600, false⟩] 1000 1000).segments Axis.a 1500 0
      ((buildMap [⟨200, 600, false⟩] 1000 1000).segments.length - 1) =
    (buildMap [⟨200, 600, false⟩] 1000 1000).segments.length - 1 := by
  have hseg : (buildMap [⟨200, 600, false⟩] 1000 1000).segments =
      [(⟨0, 0, 0, 200, 600, 600, false⟩ : Segment),
       (⟨200, 600, 600, 800, 400, 800, false⟩ : Segment)] := by
    norm_num [buildMap, buildPts, sanitizeSort, sanitize, jsRound, acceptLoop, buildSegs]
  refine (C8_lookup_selection (buildMap [⟨200, 600, false⟩] 1000 1000).segments
    Axis.a Axis.v 1500 _ (buildMap_length_pos [⟨200, 600, false⟩] 1000 1000)
    (buildMap_mono [⟨200, 600, false⟩] 1000 1000 Axis.a) rfl).2.2.1 ?_
  rw [hseg]
  norm_num [Segment.pos, dfltSeg]

/-- C5 counterexample: the list
`[(100,500), (200,300), (300,400), (400,600)]` contains exactly one
anchor whose `bPx` is out of order relative to its immediate list
predecessor (`300 < 500`, while `400 ≥ 300` and `600 ≥ 400`), yet
`buildMap` drops TWO anchors (`droppedCount = 2`, the repo's own test
expectation): `(300,400)` is also rejected because acceptance compares
against the most recently ACCEPTED anchor's `bPx` (500), not the
predecessor's. -/
theorem C5_accept_counterexample :
    ((300 : ℚ) < 500 ∧ ¬ ((400 : ℚ) < 300) ∧ ¬ ((600 : ℚ) < 400)) ∧
    (buildMap [⟨100, 500, false⟩, ⟨200, 300, false⟩, ⟨300, 400, false⟩,
      ⟨400, 600, false⟩] 1000 1000).droppedCount = 2 ∧
    (buildMap [⟨100, 500, false⟩, ⟨200, 300, false⟩, ⟨300, 400, false⟩,
      ⟨400, 600, false⟩] 1000 1000).droppedCount ≠ 1 := by
  refine ⟨⟨by norm_num, by norm_num, by norm_num⟩, ?_, ?_⟩
  · norm_num [buildMap, buildPts, sanitizeSort, sanitize, jsRound, acceptLoop, buildSegs]
  · norm_num [buildMap, buildPts, sanitizeSort, sanitize, jsRound, acceptLoop, buildSegs]

/-- C5 (amended): after sorting, an anchor is accepted iff its `bPx` is
≥ the most recently accepted anchor's `bPx` AND its `aPx` is strictly
greater than the most recently accepted anchor's `aPx` (first of
duplicate `aPx` wins); every rejected anchor increments `droppedCount`
and is otherwise discarded (accepted + dropped = total); the segment
count always equals accepted anchors + 1; and for an anchor list in
which exactly one anchor fails this acceptance test — out of order
relative to the most recently accepted anchor, not merely its immediate
predecessor — `droppedCount = 1` and the segment count equals accepted
anchors + 1 (concrete instance included). -/
theorem C5_accept_rule (la lb : ℚ) (e : Pt) (rest : List Pt)
    (anchors : List Anchor) (eA eB : ℚ) :
    (lb ≤ e.bPx ∧ la < e.aPx →
      (acceptLoop la lb (e :: rest)).1 = e :: (acceptLoop e.aPx e.bPx rest).1 ∧
      (acceptLoop la lb (e :: rest)).2 = (acceptLoop e.aPx e.bPx rest).2) ∧
    (¬ (lb ≤ e.bPx ∧ la < e.aPx) →
      (acceptLoop la lb (e :: rest)).1 = (acceptLoop la lb rest).1 ∧
      (acceptLoop la lb (e :: rest)).2 = (acceptLoop la lb rest).2 + 1) ∧
    (acceptLoop la lb (e :: rest)).1.length + (acceptLoop la lb (e :: rest)).2 =
      (e :: rest).length ∧
    (buildMap anchors eA eB).droppedCount =
      (acceptLoop 0 0 (sanitizeSort anchors (max 0 eA) (max 0 eB))).2 ∧
    (buildMap anchors eA eB).segments.length =
      (acceptLoop 0 0 (sanitizeSort anchors (max 0 eA) (max 0 eB))).1.length + 1 ∧
    (buildMap [⟨200, 500, false⟩, ⟨400, 300, false⟩, ⟨600, 800, false⟩]
      1000 1000).droppedCount = 1 ∧
    (buildMap [⟨200, 500, false⟩, ⟨400, 300, false⟩, ⟨600, 800, false⟩]
      1000 1000).segments.length = 3 := by
  refine ⟨?_, ?_, acceptLoop_count (e :: rest) la lb, rfl, ?_, ?_, ?_⟩
  · intro hc
    constructor
    · simp only [acceptLoop, if_pos hc]
    · simp only [acceptLoop, if_pos hc]
  · intro hc
    constructor
    · simp only [acceptLoop, if_neg hc]
    · simp only [acceptLoop, if_neg hc]
  · have h1 := buildMap_segs_length anchors eA eB
    have h2 := buildPts_length anchors (max 0 eA) (max 0 eB)
    omega
  · norm_num [buildMap, buildPts, sanitizeSort, sanitize, jsRound, acceptLoop, buildSegs]
  · norm_num [buildMap, buildPts, sanitizeSort, sanitize, jsRound, acceptLoop, buildSegs]

/-- Witness for C5 (amended): an in-order anchor is accepted and an
out-of-order one is dropped, at concrete inputs. -/
theorem C5_accept_rule_witness :
    (acceptLoop 0 0 [(⟨200, 500, false⟩ : Pt)]).1 =
      (⟨200, 500, false⟩ : Pt) :: (acceptLoop 200 500 []).1 ∧
    (acceptLoop 200 500 [(⟨400, 300, false⟩ : Pt)]).2 =
      (acceptLoop 200 500 []).2 + 1 := by
  constructor
  · exact ((C5_accept_rule 0 0 ⟨200, 500, false⟩ [] [] 0 0).1
      ⟨by norm_num, by norm_num⟩).1
  · exact ((C5_accept_rule 200 500 ⟨400, 300, false⟩ [] [] 0 0).2.1
      (by norm_num)).2

/-- C4: after a programmatic write (`#applyV`), the written values are
recorded as expectations for both panes; on the next native scroll event
on a pane with a recorded expectation, the expectation is cleared either
way, and: if the pane's offset differs from the expected value by less
than `ECHO_GUARD_PX` the event is discarded with no other state change
(in particular the opposite pane's offset is untouched and `onSync` does
not fire); if it differs by at least the tolerance, a full re-sync runs:
the moved pane's offset is converted to a (clamped) virtual position,
the opposite pane is written to the corresponding offset, and that write
is recorded as a new expectation for the opposite pane. -/
theorem C4_echo_suppression (st : CtrlState) (e : ℚ) (hen : st.enabled = true) :
    ((applyV st).expectedA = some ((applyV st).paneATop) ∧
     (applyV st).expectedB = some ((applyV st).paneBTop)) ∧
    (st.expectedB = some e → |st.paneBTop - e| < ECHO_GUARD_PX →
      handleScroll st Source.b = ⟨{ st with expectedB := none }, false, false⟩) ∧
    (st.expectedA = some e → |st.paneATop - e| < ECHO_GUARD_PX →
      handleScroll st Source.a = ⟨{ st with expectedA := none }, false, false⟩) ∧
    (st.expectedB = some e → ECHO_GUARD_PX ≤ |st.paneBTop - e| →
      st.data.segments.length ≠ 0 →
      handleScroll st Source.b =
        ⟨{ st with
            expectedB := none
            vCurrent := max 0 (min st.data.vTotal
              (lookup st.data.segments Axis.b Axis.v (st.paneBTop + st.alignOffset)))
            paneATop := lookup st.data.segments Axis.v Axis.a
              (max 0 (min st.data.vTotal
                (lookup st.data.segments Axis.b Axis.v (st.paneBTop + st.alignOffset)))) -
              st.alignOffset
            expectedA := some (lookup st.data.segments Axis.v Axis.a
              (max 0 (min st.data.vTotal
                (lookup st.data.segments Axis.b Axis.v (st.paneBTop + st.alignOffset)))) -
              st.alignOffset) }, true, true⟩) ∧
    (st.expectedA = some e → ECHO_GUARD_PX ≤ |st.paneATop - e| →
      st.data.segments.length ≠ 0 →
      handleScroll st Source.a =
        ⟨{ st with
            expectedA := none
            vCurrent := max 0 (min st.data.vTotal
              (lookup st.data.segments Axis.a Axis.v (st.paneATop + st.alignOffset)))
            paneBTop := lookup st.data.segments Axis.v Axis.b
              (max 0 (min st.data.vTotal
                (lookup st.data.segments Axis.a Axis.v (st.paneATop + st.alignOffset)))) -
              st.alignOffset
            expectedB := some (lookup st.data.segments Axis.v Axis.b
              (max 0 (min st.data.vTotal
                (lookup st.data.segments Axis.a Axis.v (st.paneATop + st.alignOffset)))) -
              st.alignOffset) }, true, true⟩) := by
  refine ⟨⟨rfl, rfl⟩, ?_, ?_, ?_, ?_⟩
  · intro hexp htol
    simp [handleScroll, hen, hexp, htol]
  · intro hexp htol
    simp [handleScroll, hen, hexp, htol]
  · intro hexp htol hne
    simp [handleScroll, handleScrollResync, hen, hexp, not_lt.mpr htol, hne]
  · intro hexp htol hne
    simp [handleScroll, handleScrollResync, hen, hexp, not_lt.mpr htol, hne]

/-- Witness for C4 at a concrete synced state: pane A at 200, pane B
written to 600 with expectation 600 recorded; a following scroll event
on B at offset 601 (echo, |601 − 600| = 1 < 3) is absorbed, leaving
everything but the cleared expectation unchanged. -/
theorem C4_echo_suppression_witness :
    handleScroll
      ⟨200, 601, 600, none, some 600, true, 0, buildMap [⟨200, 600, false⟩] 1000 1000⟩
      Source.b =
    ⟨⟨200, 601, 600, none, none, true, 0, buildMap [⟨200, 600, false⟩] 1000 1000⟩,
      false, false⟩ :=
  (C4_echo_suppression
    ⟨200, 601, 600, none, some 600, true, 0, buildMap [⟨200, 600, false⟩] 1000 1000⟩
    600 rfl).2.1 rfl (by norm_num [ECHO_GUARD_PX])

/-- C10 (implicit): when the controller's `enabled` flag is false, a
native scroll event on either pane is ignored entirely: no pane offset
is written, the virtual position and both stored echo expectations are
unchanged, `ensureMap` is never reached (so no rebuild can be
triggered), and the after-sync callback does not fire. -/
theorem C10_disabled_scroll_ignored (st : CtrlState) (src : Source)
    (hdis : st.enabled = false) :
    handleScroll st src = ⟨st, false, false⟩ := by
  simp [handleScroll, hdis]

/-- Witness for C10 at a concrete disabled state. -/
theorem C10_disabled_scroll_ignored_witness :
    handleScroll
      ⟨200, 0, 600, some 1, some 2, false, 0, buildMap [⟨200, 600, false⟩] 1000 1000⟩
      Source.a =
    ⟨⟨200, 0, 600, some 1, some 2, false, 0, buildMap [⟨200, 600, false⟩] 1000 1000⟩,
      false, false⟩ :=
  C10_disabled_scroll_ignored
    ⟨200, 0, 600, some 1, some 2, false, 0, buildMap [⟨200, 600, false⟩] 1000 1000⟩
    Source.a rfl

theorem handleWheel_vCurrent (st : CtrlState) (delta : ℚ) :
    (handleWheel st delta).vCurrent =
      max 0 (min st.data.vTotal (st.vCurrent + delta)) := rfl

theorem handleWheel_data (st : CtrlState) (delta : ℚ) :
    (handleWheel st delta).data = st.data := rfl

theorem handleWheel_fold_bounds (vT : ℚ) (hvT : 0 ≤ vT) :
    ∀ (deltas : List ℚ) (st : CtrlState), st.data.vTotal = vT →
      0 ≤ st.vCurrent → st.vCurrent ≤ vT →
      0 ≤ (deltas.foldl handleWheel st).vCurrent ∧
      (deltas.foldl handleWheel st).vCurrent ≤ vT := by
  intro deltas
  induction deltas with
  | nil => intro st _ h1 h2; exact ⟨h1, h2⟩
  | cons d rest ih =>
    intro st h0 h1 h2
    refine ih (handleWheel st d) (by rw [handleWheel_data]; exact h0) ?_ ?_
    · rw [handleWheel_vCurrent]; exact le_max_left _ _
    · rw [handleWheel_vCurrent, h0]; exact max_le hvT (min_le_left _ _)

theorem buildMap_lookup_v_zero (anchors : List Anchor) (eA eB : ℚ) :
    lookup (buildMap anchors eA eB).segments Axis.v Axis.a 0 = 0 ∧
    lookup (buildMap anchors eA eB).segments Axis.v Axis.b 0 = 0 := by
  have hn := buildMap_length_pos anchors eA eB
  have hchainV : ∀ i, i + 1 < (buildMap anchors eA eB).segments.length →
      ((buildMap anchors eA eB).segments.getD (i+1) dfltSeg).pos Axis.v =
        ((buildMap anchors eA eB).segments.getD i dfltSeg).pos Axis.v +
          ((buildMap anchors eA eB).segments.getD i dfltSeg).size Axis.v :=
    fun i hi => (buildMap_chain anchors eA eB i hi).2.2
  have hszV : ∀ i, i < (buildMap anchors eA eB).segments.length →
      0 ≤ ((buildMap anchors eA eB).segments.getD i dfltSeg).size Axis.v :=
    fun i hi => (buildMap_sizes_nonneg anchors eA eB i hi).2.2.1
  exact ⟨lookup_v_zero_core _ Axis.a hn hchainV (buildMap_first anchors eA eB).2.2
      (buildMap_first anchors eA eB).1 hszV (buildMap_vS_pos_mid anchors eA eB),
    lookup_v_zero_core _ Axis.b hn hchainV (buildMap_first anchors eA eB).2.2
      (buildMap_first anchors eA eB).2.1 hszV (buildMap_vS_pos_mid anchors eA eB)⟩

theorem buildMap_lookup_nonneg (anchors : List Anchor) (eA eB : ℚ) (value : ℚ)
    (hval : 0 ≤ value) :
    0 ≤ lookup (buildMap anchors eA eB).segments Axis.v Axis.a value ∧
    0 ≤ lookup (buildMap anchors eA eB).segments Axis.v Axis.b value := by
  have hn := buildMap_length_pos anchors eA eB
  have hchainV : ∀ i, i + 1 < (buildMap anchors eA eB).segments.length →
      ((buildMap anchors eA eB).segments.getD (i+1) dfltSeg).pos Axis.v =
        ((buildMap anchors eA eB).segments.getD i dfltSeg).pos Axis.v +
          ((buildMap anchors eA eB).segments.getD i dfltSeg).size Axis.v :=
    fun i hi => (buildMap_chain anchors eA eB i hi).2.2
  have hszV : ∀ i, i < (buildMap anchors eA eB).segments.length →
      0 ≤ ((buildMap anchors eA eB).segments.getD i dfltSeg).size Axis.v :=
    fun i hi => (buildMap_sizes_nonneg anchors eA eB i hi).2.2.1
  exact ⟨lookup_v_nonneg_core _ Axis.a value hn hchainV
      (buildMap_first anchors eA eB).2.2
      (fun i hi => (buildMap_pos_nonneg anchors eA eB i hi).1)
      (fun i hi => (buildMap_sizes_nonneg anchors eA eB i hi).1) hszV hval,
    lookup_v_nonneg_core _ Axis.b value hn hchainV
      (buildMap_first anchors eA eB).2.2
      (fun i hi => (buildMap_pos_nonneg anchors eA eB i hi).2.1)
      (fun i hi => (buildMap_sizes_nonneg anchors eA eB i hi).2.1) hszV hval⟩

/-- C6: with a map produced by `buildMap`, the virtual position is
clamped into `[0, vTotal]` by every wheel application (`#handleWheel`)
and by `scrollTo`, so no sequence of wheel deltas can drive it negative
or past the document end; a sufficiently large negative delta drives it
to exactly 0, with both panes written to offset 0 (at the default
`alignOffset = 0`); and pane offsets written by wheel handling are never
negative. -/
theorem C6_wheel_clamping (st : CtrlState) (anchors : List Anchor) (eA eB : ℚ)
    (hdata : st.data = buildMap anchors eA eB) :
    (∀ delta : ℚ, 0 ≤ (handleWheel st delta).vCurrent ∧
      (handleWheel st delta).vCurrent ≤ st.data.vTotal) ∧
    (∀ v : ℚ, 0 ≤ (scrollTo st v).vCurrent ∧
      (scrollTo st v).vCurrent ≤ st.data.vTotal) ∧
    (∀ deltas : List ℚ, 0 ≤ st.vCurrent → st.vCurrent ≤ st.data.vTotal →
      0 ≤ (deltas.foldl handleWheel st).vCurrent ∧
      (deltas.foldl handleWheel st).vCurrent ≤ st.data.vTotal) ∧
    (∀ delta : ℚ, st.vCurrent ≤ st.data.vTotal → delta ≤ -st.data.vTotal →
      (handleWheel st delta).vCurrent = 0) ∧
    (∀ delta : ℚ, st.alignOffset = 0 → st.vCurrent ≤ st.data.vTotal →
      delta ≤ -st.data.vTotal →
      (handleWheel st delta).paneATop = 0 ∧ (handleWheel st delta).paneBTop = 0) ∧
    (∀ delta : ℚ, st.alignOffset = 0 →
      0 ≤ (handleWheel st delta).paneATop ∧ 0 ≤ (handleWheel st delta).paneBTop) := by
  have hvT : 0 ≤ st.data.vTotal := by
    rw [hdata]; exact buildMap_vTotal_nonneg anchors eA eB
  have hclamp0 : ∀ delta : ℚ, st.vCurrent ≤ st.data.vTotal →
      delta ≤ -st.data.vTotal →
      max 0 (min st.data.vTotal (st.vCurrent + delta)) = 0 := by
    intro delta h1 h2
    have hs : st.vCurrent + delta ≤ 0 := by linarith
    rw [min_eq_right (by linarith), max_eq_left hs]
  have hpA : ∀ delta : ℚ, (handleWheel st delta).paneATop =
      lookup st.data.segments Axis.v Axis.a
        (max 0 (min st.data.vTotal (st.vCurrent + delta))) - st.alignOffset :=
    fun _ => rfl
  have hpB : ∀ delta : ℚ, (handleWheel st delta).paneBTop =
      lookup st.data.segments Axis.v Axis.b
        (max 0 (min st.data.vTotal (st.vCurrent + delta))) - st.alignOffset :=
    fun _ => rfl
  refine ⟨?_, ?_, ?_, ?_, ?_, ?_⟩
  · intro delta
    rw [handleWheel_vCurrent]
    exact ⟨le_max_left _ _, max_le hvT (min_le_left _ _)⟩
  · intro v
    exact ⟨le_max_left _ _, max_le hvT (min_le_left _ _)⟩
  · intro deltas h1 h2
    exact handleWheel_fold_bounds st.data.vTotal hvT deltas st rfl h1 h2
  · intro delta h1 h2
    rw [handleWheel_vCurrent]
    exact hclamp0 delta h1 h2
  · intro delta hoff h1 h2
    rw [hpA, hpB, hclamp0 delta h1 h2, hoff, sub_zero, sub_zero, hdata]
    exact ⟨(buildMap_lookup_v_zero anchors eA eB).1,
      (buildMap_lookup_v_zero anchors eA eB).2⟩
  · intro delta hoff
    rw [hpA, hpB, hoff, sub_zero, sub_zero, hdata]
    exact ⟨(buildMap_lookup_nonneg anchors eA eB _ (le_max_left _ _)).1,
      (buildMap_lookup_nonneg anchors eA eB _ (le_max_left _ _)).2⟩

/-- Witness for C6: from the initial state, a large negative wheel delta
lands the virtual position at exactly 0 with both panes at offset 0. -/
theorem C6_wheel_clamping_witness :
    (handleWheel
      ⟨0, 0, 0, none, none, true, 0, buildMap [⟨200, 600, false⟩] 1000 1000⟩
      (-9999)).vCurrent = 0 ∧
    (handleWheel
      ⟨0, 0, 0, none, none, true, 0, buildMap [⟨200, 600, false⟩] 1000 1000⟩
      (-9999)).paneATop = 0 ∧
    (handleWheel
      ⟨0, 0, 0, none, none, true, 0, buildMap [⟨200, 600, false⟩] 1000 1000⟩
      (-9999)).paneBTop = 0 := by
  have hvt : (buildMap [⟨200, 600, false⟩] 1000 1000).vTotal = 1400 := by
    norm_num [buildMap, buildPts, sanitizeSort, sanitize, jsRound, acceptLoop, buildSegs]
  have h := C6_wheel_clamping
    ⟨0, 0, 0, none, none, true, 0, buildMap [⟨200, 600, false⟩] 1000 1000⟩
    [⟨200, 600, false⟩] 1000 1000 rfl
  refine ⟨h.2.2.2.1 (-9999) ?_ ?_, (h.2.2.2.2.1 (-9999) rfl ?_ ?_).1,
    (h.2.2.2.2.1 (-9999) rfl ?_ ?_).2⟩ <;>
    show _ ≤ _ <;> rw [show (⟨0, 0, 0, none, none, true, 0,
      buildMap [⟨200, 600, false⟩] 1000 1000⟩ : CtrlState).data =
      buildMap [⟨200, 600, false⟩] 1000 1000 from rfl, hvt] <;> norm_num

/-- C7: when `ensureMap` must rebuild (dirty, or no cached map) and the
anchor supplier (or the builder) throws, the exception does not
propagate: the empty fallback map is installed, the thrown value is
reported through `onError` exactly when that callback was supplied, the
dirty flag is cleared, `onMapBuilt` is invoked with the resulting map
(the empty fallback) exactly when supplied, and the fallback map is
returned; on the non-throwing path the same postconditions hold with
the freshly built map and no error report. -/
theorem C7_ensureMap_fallback (dirty : Bool) (cached : Option MapData)
    (sA sB : ℚ) (hasOnError hasOnMapBuilt : Bool) (errVal : ℕ)
    (anchors : List Anchor) (htrigger : dirty = true ∨ cached = none) :
    ((ensureMap dirty cached (SupplierResult.thrown errVal) sA sB
        hasOnError hasOnMapBuilt).data = emptyMapData ∧
     (ensureMap dirty cached (SupplierResult.thrown errVal) sA sB
        hasOnError hasOnMapBuilt).dirty = false ∧
     (ensureMap dirty cached (SupplierResult.thrown errVal) sA sB
        hasOnError hasOnMapBuilt).errorArg =
          (if hasOnError then some errVal else none) ∧
     (ensureMap dirty cached (SupplierResult.thrown errVal) sA sB
        hasOnError hasOnMapBuilt).mapBuiltArg =
          (if hasOnMapBuilt then some emptyMapData else none) ∧
     (ensureMap dirty cached (SupplierResult.thrown errVal) sA sB
        hasOnError hasOnMapBuilt).ret = emptyMapData) ∧
    ((ensureMap dirty cached (SupplierResult.ok anchors) sA sB
        hasOnError hasOnMapBuilt).data = buildMap anchors sA sB ∧
     (ensureMap dirty cached (SupplierResult.ok anchors) sA sB
        hasOnError hasOnMapBuilt).dirty = false ∧
     (ensureMap dirty cached (SupplierResult.ok anchors) sA sB
        hasOnError hasOnMapBuilt).errorArg = none ∧
     (ensureMap dirty cached (SupplierResult.ok anchors) sA sB
        hasOnError hasOnMapBuilt).mapBuiltArg =
          (if hasOnMapBuilt then some (buildMap anchors sA sB) else none) ∧
     (ensureMap dirty cached (SupplierResult.ok anchors) sA sB
        hasOnError hasOnMapBuilt).ret = buildMap anchors sA sB) := by
  constructor <;> · simp [ensureMap, htrigger]

/-- Witness for C7 at a dirty controller with both callbacks supplied. -/
theorem C7_ensureMap_fallback_witness :
    (ensureMap true none (SupplierResult.thrown 42) 1000 2000 true true).data =
      emptyMapData ∧
    (ensureMap true none (SupplierResult.thrown 42) 1000 2000 true true).dirty =
      false ∧
    (ensureMap true none (SupplierResult.thrown 42) 1000 2000 true true).errorArg =
      (if true then some 42 else none) ∧
    (ensureMap true none (SupplierResult.thrown 42) 1000 2000 true true).mapBuiltArg =
      (if true then some emptyMapData else none) ∧
    (ensureMap true none (SupplierResult.thrown 42) 1000 2000 true true).ret =
      emptyMapData :=
  (C7_ensureMap_fallback true none 1000 2000 true true 42 [] (Or.inl rfl)).1

/-- C9 (code bug): a first `destroy()` on a live controller does disable
it, cancel the outstanding frame, and remove all four listeners — but it
also nulls the pane references, so a second `destroy()` dereferences
`null` in `removeEventListener` and throws a TypeError, violating the
spec's requirement that `destroy()` be safe to call multiple times. -/
theorem C9_destroy_second_call_throws :
    destroy ⟨true, 10, true, some 7, [], true, 1, 1, 1, 1, true⟩ =
      Except.ok ⟨false, 0, false, none, [7], false, 0, 0, 0, 0, false⟩ ∧
    destroy ⟨false, 0, false, none, [7], false, 0, 0, 0, 0, false⟩ =
      Except.error JsError.typeError := by
  constructor <;> rfl
